import Mathlib

/-!
# Parcours: gameplay core of the AR obstacle course (`src/main.js`)

Shallow embedding of the gameplay engine of `main.js`: the geometry helpers,
the scoring state, the `Obstacle` class, the obstacle `pool`, the `spawner`,
the head-based player estimator and the frame callback `onXRFrame`.

Conventions of the embedding.

* JavaScript numbers are modelled as rationals (`ℚ`); rounding of IEEE doubles
  is not modelled.
* JavaScript object references into `pool.all` are modelled as indices into the
  list `Pool.all`; `Pool.active` is the list of such indices.
* `null` / `undefined` are modelled by `Option.none`; a field that the source
  only ever tests for truthiness is modelled by a `Bool`.
* What the scene graph, the XR session and `Math.random` supply is an input of
  the step functions (`FrameInput`, `Rand`).
-/

namespace Parcours

/-! ## Track -/

/-- The `track` object literal. -/
structure Track where
  width : ℚ
  length : ℚ
  treadmill : Bool
  speed : ℚ
  laneOffset : ℚ
deriving DecidableEq

/-- The value of the constant `track`. -/
def track : Track :=
  { width := 1.8, length := 3.0, treadmill := true, speed := 1.5, laneOffset := 0.6 }

/-! ## Geometry utilities -/

/-- A `THREE.Vector3`. -/
structure Vec3 where
  x : ℚ
  y : ℚ
  z : ℚ
deriving DecidableEq

/-- The library function `THREE.MathUtils.lerp(x, y, t)`: `(1 - t) * x + t * y`. -/
def lerp (x y t : ℚ) : ℚ := (1 - t) * x + t * y

/-- The function `lowpass(prev, next, a)`: `prev == null ? next : lerp(prev, next, a)`. -/
def lowpass (prev : Option ℚ) (next a : ℚ) : ℚ :=
  match prev with
  | none => next
  | some p => lerp p next a

/-- The function `clamp(x, a, b)`: `Math.min(Math.max(x, a), b)`. -/
def clamp (x a b : ℚ) : ℚ := min (max x a) b

/-- The function `sphereIntersectsAABB(c, r, min, max)`. -/
def sphereIntersectsAABB (c : Vec3) (r : ℚ) (min max : Vec3) : Bool :=
  let cx := clamp c.x min.x max.x
  let cy := clamp c.y min.y max.y
  let cz := clamp c.z min.z max.z
  let dx := c.x - cx
  let dy := c.y - cy
  let dz := c.z - cz
  decide (dx * dx + dy * dy + dz * dz ≤ r * r)

/-- The distance by which `x` lies outside the interval from `a` to `b`
(0 when `x` is inside it). -/
def excess (x a b : ℚ) : ℚ := if x < a then a - x else if b < x then x - b else 0

/-- The squared Euclidean distance from the point `c` to the axis-aligned box
with corners `mn` and `mx`. -/
def boxDistSq (c mn mx : Vec3) : ℚ :=
  excess c.x mn.x mx.x * excess c.x mn.x mx.x + excess c.y mn.y mx.y * excess c.y mn.y mx.y
    + excess c.z mn.z mx.z * excess c.z mn.z mx.z

/-! ## Scoring -/

/-- The `game` object. -/
structure Game where
  score : ℚ
  combo : ℕ
  misses : ℕ
  running : Bool
deriving DecidableEq

/-- The initial value of `game`. -/
def Game.init : Game := { score := 0, combo := 0, misses := 0, running := true }

/-- The function `addScore(pts)`. -/
def addScore (game : Game) (pts : ℚ) : Game :=
  { game with score := game.score + pts, combo := game.combo + 1 }

/-- The function `addMiss()`. -/
def addMiss (game : Game) : Game :=
  { game with misses := game.misses + 1, combo := 0 }

/-- The function `resetGameStats()`. -/
def resetGameStats (game : Game) : Game :=
  { game with score := 0, combo := 0, misses := 0 }

/-! ## Obstacles -/

/-- The obstacle types `OBST`. -/
inductive OBST where
  | OVERHEAD_BAR
  | GATE_LEFT
  | GATE_RIGHT
  | HURDLE
deriving DecidableEq, Repr

/-- An instance of the class `Obstacle`.  `position` is `group.position`,
`visible` is `group.visible`.  `_aabbOffsetX` is only assigned for gates and
only read for gates (it is `0` here where the source leaves it undefined);
`requiresJump`, `_cleared` and `_scored` are only tested for truthiness
(`false` here where the source leaves them undefined). -/
structure Obstacle where
  type : OBST
  active : Bool
  visible : Bool
  speed : ℚ
  hx : ℚ
  hy : ℚ
  hz : ℚ
  position : Vec3
  _aabbOffsetX : ℚ
  requiresJump : Bool
  _cleared : Bool
  _scored : Bool
deriving DecidableEq

/-- The constructor `new Obstacle(type)`. -/
def Obstacle.new (type : OBST) : Obstacle :=
  let base : Obstacle :=
    { type := type, active := false, visible := true, speed := track.speed,
      hx := 0.5, hy := 0.5, hz := 0.2, position := ⟨0, 0, 0⟩,
      _aabbOffsetX := 0, requiresJump := false, _cleared := false, _scored := false }
  if type = .OVERHEAD_BAR then
    let thickness : ℚ := 0.15
    { base with hx := track.width * 0.5, hy := thickness * 0.5, hz := 0.125 }
  else if type = .GATE_LEFT ∨ type = .GATE_RIGHT then
    let wallW : ℚ := track.width * 0.33
    let wallH : ℚ := 2.0
    let wallZ : ℚ := 0.25
    let gapSide : ℚ := if type = .GATE_LEFT then -1 else 1
    let blockSide : ℚ := -gapSide
    let leftX : ℚ := blockSide * (track.width / 2 - wallW / 2)
    { base with _aabbOffsetX := leftX, hx := wallW / 2, hy := wallH / 2, hz := wallZ / 2 }
  else if type = .HURDLE then
    let h : ℚ := 0.45
    let w : ℚ := track.width * 0.6
    let d : ℚ := 0.2
    { base with hx := w / 2, hy := h / 2, hz := d / 2, requiresJump := true, _cleared := false }
  else base

/-- The method `spawn(zStart)`. -/
def Obstacle.spawn (o : Obstacle) (zStart : ℚ) : Obstacle :=
  { o with active := true, visible := true, position := ⟨0, 0, zStart⟩, _cleared := false }

/-- The method `update(dt)`. -/
def Obstacle.update (o : Obstacle) (dt : ℚ) : Obstacle :=
  if !o.active then o
  else { o with position := { o.position with z := o.position.z + o.speed * dt } }

/-- The method `getAABB()`, returning `(min, max)`. -/
def Obstacle.getAABB (o : Obstacle) : Vec3 × Vec3 :=
  let x := o.position.x
  let y := o.position.y
  let z := o.position.z
  let cx := if o.type = .GATE_LEFT ∨ o.type = .GATE_RIGHT then x + o._aabbOffsetX else x
  (⟨cx - o.hx, (y + o.hy) - o.hy * 2, z - o.hz⟩, ⟨cx + o.hx, y + o.hy, z + o.hz⟩)

/-- The method `checkHurdleClear(nowSec)`; `lastJumpAt` is `player.lastJumpAt`.
Returns the (possibly marked) obstacle and the JavaScript result
`true` / `false` / `null`. -/
def Obstacle.checkHurdleClear (o : Obstacle) (nowSec lastJumpAt : ℚ) :
    Obstacle × Option Bool :=
  if !o.requiresJump || o._cleared then (o, some false)
  else
    let z := o.position.z
    if z > -0.2 ∧ z < 0.3 then
      if nowSec - lastJumpAt < 0.35 then ({ o with _cleared := true }, some true)
      else (o, some false)
    else (o, none)

/-- The method `recycle()`. -/
def Obstacle.recycle (o : Obstacle) : Obstacle :=
  { o with active := false, visible := false }

/-! ## Pool -/

/-- The `pool` object: `all` holds every constructed obstacle, `active` the
references (indices into `all`) of the obstacles in play. -/
structure Pool where
  all : List Obstacle
  active : List ℕ
deriving DecidableEq

/-- Apply a method to the obstacle referenced by `i`. -/
def modifyAt (all : List Obstacle) (i : ℕ) (f : Obstacle → Obstacle) : List Obstacle :=
  match all[i]? with
  | some o => all.set i (f o)
  | none => all

/-- The method `pool.get(type)`: the new pool and the reference returned. -/
def pool.get (p : Pool) (type : OBST) : Pool × ℕ :=
  match p.all.findIdx? (fun x => !x.active && decide (x.type = type)) with
  | some i => ({ p with active := p.active ++ [i] }, i)
  | none =>
    let o := Obstacle.new type
    ({ all := p.all ++ [o], active := p.active ++ [p.all.length] }, p.all.length)

/-- The body of the loop of `pool.update(dt)` for one slot of `active`:
the new `all` and whether the slot is kept (not spliced out). -/
def pool.updateSlot (dt : ℚ) (all : List Obstacle) (i : ℕ) : List Obstacle × Bool :=
  match all[i]? with
  | none => (all, true)
  | some ob =>
    let ob1 := ob.update dt
    if ob1.position.z > 0.6 then (all.set i ob1.recycle, false)
    else (all.set i ob1, true)

/-- The loop of `pool.update(dt)`; it runs from the last slot of `active`
to the first, so the slots after the head are processed before the head. -/
def pool.updateLoop (dt : ℚ) : List ℕ → List Obstacle → List ℕ × List Obstacle
  | [], all => ([], all)
  | i :: rest, all =>
    let r := pool.updateLoop dt rest all
    let u := pool.updateSlot dt r.2 i
    (if u.2 then i :: r.1 else r.1, u.1)

/-- The method `pool.update(dt)`. -/
def pool.update (p : Pool) (dt : ℚ) : Pool :=
  let r := pool.updateLoop dt p.active p.all
  { all := r.2, active := r.1 }

/-- The method `pool.clear()`. -/
def pool.clear (p : Pool) : Pool :=
  { all := p.active.foldl (fun all i => modifyAt all i Obstacle.recycle) p.all, active := [] }

/-! ## Spawner -/

/-- The `spawner` object. -/
structure Spawner where
  t : ℚ
  nextIn : ℚ
  minGap : ℚ
deriving DecidableEq

/-- The initial value of `spawner`. -/
def Spawner.init : Spawner := { t := 0, nextIn := 1.1, minGap := 0.8 }

/-- The results of the four calls of `Math.random()` in `spawner.spawn`, in
source order: type draw, gate side, hurdle lane, interval jitter.  Each lies
in `[0, 1)`. -/
structure Rand where
  r : ℚ
  side : ℚ
  lane : ℚ
  jitter : ℚ
deriving DecidableEq

/-- The library function `THREE.MathUtils.mapLinear(x, a1, a2, b1, b2)`. -/
def MathUtils.mapLinear (x a1 a2 b1 b2 : ℚ) : ℚ := b1 + (x - a1) * (b2 - b1) / (a2 - a1)

/-- The library function `THREE.MathUtils.clamp(value, min, max)`. -/
def MathUtils.clamp (value min max : ℚ) : ℚ := Max.max min (Min.min max value)

/-- The method `spawner.reset()`. -/
def spawner.reset (sp : Spawner) : Spawner := { sp with t := 0, nextIn := 1.1 }

/-! ## Player -/

/-- The calibration accumulator `player._acc`. -/
structure Acc where
  sum : ℚ
  n : ℕ
  t0 : ℚ
deriving DecidableEq

/-- The `player` object, with the fields `_acc`, `_duckOn`, `_lastJump` that
the frame callback adds to it (`none` / `false` while undefined). -/
structure Player where
  baselineY : Option ℚ
  smoothY : Option ℚ
  smoothVy : ℚ
  lastY : Option ℚ
  lastT : Option ℚ
  lateralX : ℚ
  headRadius : ℚ
  DUCK_DELTA : ℚ
  JUMP_VY : ℚ
  JUMP_MIN_DY : ℚ
  LATERAL_STEP : ℚ
  lastJumpAt : ℚ
  _acc : Option Acc
  _duckOn : Bool
  _lastJump : Option ℚ
deriving DecidableEq

/-- The initial value of `player`. -/
def Player.init : Player :=
  { baselineY := none, smoothY := none, smoothVy := 0, lastY := none, lastT := none,
    lateralX := 0, headRadius := 0.18, DUCK_DELTA := 0.25, JUMP_VY := 1.2,
    JUMP_MIN_DY := 0.10, LATERAL_STEP := 0.35, lastJumpAt := 0,
    _acc := none, _duckOn := false, _lastJump := none }

/-! ## Program state -/

/-- The module-level state.  `trackRoot` records whether the track root exists
(its transform is only used through `worldToLocal`, whose result is a frame
input); `xrSession` and `hitTestSource` record whether they are non-null;
`reticleVisible` is `reticle.visible`. -/
structure State where
  player : Player
  game : Game
  pool : Pool
  spawner : Spawner
  trackRoot : Bool
  placing : Bool
  reticleVisible : Bool
  xrSession : Bool
  hitTestSource : Bool
deriving DecidableEq

/-- The state after the module has been loaded. -/
def State.init : State :=
  { player := Player.init, game := Game.init, pool := { all := [], active := [] },
    spawner := Spawner.init, trackRoot := false, placing := false,
    reticleVisible := false, xrSession := false, hitTestSource := false }

/-- The method `spawner.spawn()`. -/
def spawner.spawn (s : State) (rnd : Rand) : State :=
  if !s.trackRoot then s
  else
    let type : OBST :=
      if rnd.r < 0.4 then .OVERHEAD_BAR
      else if rnd.r < 0.75 then (if rnd.side < 0.5 then .GATE_LEFT else .GATE_RIGHT)
      else .HURDLE
    let g := pool.get s.pool type
    let zStart : ℚ := -track.length - 0.5
    let all1 := modifyAt g.1.all g.2 (fun o => o.spawn zStart)
    let all2 :=
      if type = .HURDLE then
        let lane : ℚ := [-track.laneOffset, 0, track.laneOffset].getD (⌊rnd.lane * 3⌋).toNat 0
        modifyAt all1 g.2 (fun o => { o with position := { o.position with x := lane } })
      else all1
    let base := MathUtils.mapLinear track.speed 1.0 2.5 1.4 0.9
    { s with
      pool := { all := all2, active := g.1.active }
      spawner := { s.spawner with
        nextIn := MathUtils.clamp (base + (rnd.jitter * 0.6 - 0.3)) 0.75 1.8 } }

/-- The method `spawner.update(dt)`. -/
def spawner.update (s : State) (dt : ℚ) (rnd : Rand) : State :=
  let t := s.spawner.t + dt
  if t ≥ s.spawner.nextIn then
    spawner.spawn { s with spawner := { s.spawner with t := 0 } } rnd
  else { s with spawner := { s.spawner with t := t } }

/-! ## UI events -/

/-- The click handler of `btnPlace`. -/
def btnPlace_click (s : State) : State := { s with placing := !s.placing }

/-- The click handler of `btnRecenter`: it only moves the track root, whose
transform is not part of the state. -/
def btnRecenter_click (s : State) : State := s

/-- The click handler of `btnReset`. -/
def btnReset_click (s : State) : State :=
  { s with game := resetGameStats s.game, pool := pool.clear s.pool,
           spawner := spawner.reset s.spawner }

/-- The click handler of `btnStart`, once its requests have resolved. -/
def btnStart_click (s : State) : State :=
  if s.xrSession then s
  else { s with xrSession := true, hitTestSource := true, placing := true }

/-- The listener of the session's `end` event. -/
def xrSession_end (s : State) : State :=
  { s with hitTestSource := false, xrSession := false, reticleVisible := false }

/-- The function `placeTrackAtReticle()`. -/
def placeTrackAtReticle (s : State) : State := { s with trackRoot := true }

/-- The function `onSelectPlace()`. -/
def onSelectPlace (s : State) : State :=
  if !s.placing || !s.reticleVisible then s
  else
    let s1 := placeTrackAtReticle s
    { s1 with
      player := { s1.player with
        baselineY := none, smoothY := none, smoothVy := 0, lastY := none, lastT := none }
      game := resetGameStats s1.game
      pool := pool.clear s1.pool
      spawner := spawner.reset s1.spawner }

/-! ## Frame loop -/

/-- What the XR session and the scene graph supply to one call of
`onXRFrame(t, frame)`: the timestamp `t` in milliseconds, the head position of
the viewer pose (`none` when there is no pose), whether the hit test returned a
result, the head position in the track's frame (`trackRoot.worldToLocal`), the
value of `renderer.xr.getFrame().deltaTime` (`none` when undefined) and the
random draws of a spawn. -/
structure FrameInput where
  t : ℚ
  pose : Option Vec3
  hit : Bool
  headLocal : Vec3
  deltaTime : Option ℚ
  rnd : Rand
deriving DecidableEq

/-- The block "Player Metrics" of `onXRFrame`. -/
def onXRFrame.metrics (p : Player) (now y : ℚ) : Player :=
  let p1 :=
    match p.lastT with
    | some lastT =>
      let dt := max 0.001 (now - lastT)
      let vy := (y - p.lastY.getD 0) / dt
      { p with smoothY := some (lowpass p.smoothY y 0.25),
               smoothVy := lowpass (some p.smoothVy) vy 0.2 }
    | none => p
  { p1 with lastY := some y, lastT := some now }

/-- The block "Kalibrierung" of `onXRFrame`. -/
def onXRFrame.calibrate (p : Player) (now y : ℚ) : Player :=
  match p.baselineY with
  | some _ => p
  | none =>
    let acc0 : Acc := match p._acc with
      | some a => a
      | none => { sum := 0, n := 0, t0 := now }
    let acc : Acc := { acc0 with sum := acc0.sum + y, n := acc0.n + 1 }
    if now - acc.t0 > 2.0 ∧ acc.n > 20 then
      { p with baselineY := some (acc.sum / acc.n), _acc := none }
    else { p with _acc := some acc }

/-- The guard under which the "Jump" block assigns `player.lastJumpAt`. -/
def onXRFrame.jumpFires (p : Player) (now : ℚ) : Bool :=
  match p.baselineY, p.smoothY with
  | some baselineY, some smoothY =>
    let dy := smoothY - baselineY
    decide (p.smoothVy > p.JUMP_VY ∧ dy > p.JUMP_MIN_DY) &&
      (match p._lastJump with
       | none => true
       | some lj => decide (lj = 0) || decide (now - lj > 0.35))
  | _, _ => false

/-- The block "Gesten-Events" of `onXRFrame`. -/
def onXRFrame.gestures (p : Player) (now : ℚ) : Player :=
  match p.baselineY, p.smoothY with
  | some baselineY, some smoothY =>
    let dy := smoothY - baselineY
    let p1 : Player :=
      if dy < -p.DUCK_DELTA then (if !p._duckOn then { p with _duckOn := true } else p)
      else { p with _duckOn := false }
    if onXRFrame.jumpFires p now then { p1 with _lastJump := some now, lastJumpAt := now }
    else p1
  | _, _ => p

/-- The blocks of `onXRFrame` that precede the gesture events (metrics,
calibration, lateral offset) for a frame with head height `y`. -/
def onXRFrame.estimate (trackRoot : Bool) (p : Player) (now y headLocalX : ℚ) : Player :=
  let p1 := onXRFrame.metrics p now y
  let p2 := onXRFrame.calibrate p1 now y
  { p2 with lateralX := if trackRoot then headLocalX else 0 }

/-- The player part of `onXRFrame` (metrics, calibration, lateral offset,
gestures) for a frame with head height `y`. -/
def onXRFrame.player (trackRoot : Bool) (p : Player) (now y headLocalX : ℚ) : Player :=
  onXRFrame.gestures (onXRFrame.estimate trackRoot p now y headLocalX) now

/-- The block "HURDLE: Event-Fenster prüfen" of the collision loop body. -/
def onXRFrame.hurdleBranch (now lastJumpAt : ℚ) (og : Obstacle × Game) : Obstacle × Game :=
  if og.1.type = .HURDLE then
    let c := og.1.checkHurdleClear now lastJumpAt
    if c.2 = some true then (c.1, addScore og.2 2)
    else if c.2 = some false ∧ c.1.position.z > 0.3 then (c.1, addMiss og.2)
    else (c.1, og.2)
  else og

/-- The block "AABB-Kollision (Overhead & Gate)" of the collision loop body. -/
def onXRFrame.collisionBranch (headLocal : Vec3) (headR : ℚ) (og : Obstacle × Game) :
    Obstacle × Game :=
  if og.1.type ≠ .HURDLE then
    let aabb := og.1.getAABB
    if sphereIntersectsAABB headLocal headR aabb.1 aabb.2 then (og.1, addMiss og.2)
    else if og.1.position.z > 0.3 ∧ !og.1._scored then
      ({ og.1 with _scored := true }, addScore og.2 1)
    else og
  else og

/-- The block "Recycle, wenn weit hinter Spieler" of the collision loop body;
the flag tells whether the obstacle was spliced out of `pool.active`. -/
def onXRFrame.recycleStep (og : Obstacle × Game) : Obstacle × Game × Bool :=
  if og.1.position.z > 0.6 then (og.1.recycle, og.2, true) else (og.1, og.2, false)

/-- The body of the collision loop of `onXRFrame` for one obstacle `ob`:
the obstacle and the score afterwards, and whether the obstacle was recycled
(spliced out of `pool.active`). -/
def onXRFrame.resolve (now lastJumpAt : ℚ) (headLocal : Vec3) (headR : ℚ)
    (ob : Obstacle) (game : Game) : Obstacle × Game × Bool :=
  onXRFrame.recycleStep
    (onXRFrame.collisionBranch headLocal headR (onXRFrame.hurdleBranch now lastJumpAt (ob, game)))

/-- The collision loop of `onXRFrame`; like `pool.updateLoop` it runs from the
last slot of `pool.active` to the first. -/
def onXRFrame.collide (now lastJumpAt : ℚ) (headLocal : Vec3) (headR : ℚ) :
    List ℕ → List Obstacle → Game → List ℕ × List Obstacle × Game
  | [], all, game => ([], all, game)
  | i :: rest, all, game =>
    let r := onXRFrame.collide now lastJumpAt headLocal headR rest all game
    match r.2.1[i]? with
    | none => (i :: r.1, r.2.1, r.2.2)
    | some ob =>
      let u := onXRFrame.resolve now lastJumpAt headLocal headR ob r.2.2
      (if u.2.2 then r.1 else i :: r.1, r.2.1.set i u.1, u.2.1)

/-- The frame step `dt` of the block "Game Update":
`deltaTime ? deltaTime / 1000 : 1/60`. -/
def onXRFrame.dt (f : FrameInput) : ℚ :=
  match f.deltaTime with
  | some d => if d = 0 then 1 / 60 else d / 1000
  | none => 1 / 60

/-- The block "Game Update" of `onXRFrame`. -/
def onXRFrame.gameUpdate (s : State) (now : ℚ) (f : FrameInput) : State :=
  if s.trackRoot then
    let dt : ℚ := onXRFrame.dt f
    let s1 := spawner.update s dt f.rnd
    let s2 : State := { s1 with pool := pool.update s1.pool dt }
    let r := onXRFrame.collide now s2.player.lastJumpAt f.headLocal s2.player.headRadius
      s2.pool.active s2.pool.all s2.game
    { s2 with pool := { all := r.2.1, active := r.1 }, game := r.2.2 }
  else s

/-- The frame callback `onXRFrame(t, frame)`. -/
def onXRFrame (s : State) (f : FrameInput) : State :=
  match f.pose with
  | none => s
  | some head =>
    let s1 : State := { s with reticleVisible := s.hitTestSource && s.placing && f.hit }
    let now := f.t * 0.001
    let s2 : State :=
      { s1 with player := onXRFrame.player s1.trackRoot s1.player now head.y f.headLocal.x }
    onXRFrame.gameUpdate s2 now f

/-! ## Passes of a single obstacle -/

/-- What one call of `onXRFrame` (with the track placed) does to an obstacle
that `pool.active` references once: the slot body of `pool.update(dt)`, then,
unless that recycled it, the body of the collision loop.  An inactive obstacle
is not referenced from `pool.active` and is left alone. -/
def onXRFrame.obstacleStep (headR : ℚ) (og : Obstacle × Game)
    (dt now lastJumpAt : ℚ) (headLocal : Vec3) : Obstacle × Game :=
  if !og.1.active then og
  else
    let ob1 := og.1.update dt
    if ob1.position.z > 0.6 then (ob1.recycle, og.2)
    else
      let u := onXRFrame.resolve now lastJumpAt headLocal headR ob1 og.2
      (u.1, u.2.1)

/-- The per-frame inputs of `onXRFrame.obstacleStep`. -/
structure PassFrame where
  dt : ℚ
  now : ℚ
  lastJumpAt : ℚ
  headLocal : Vec3
deriving DecidableEq

/-- The pass of one obstacle through a sequence of frames. -/
def obstaclePass (headR : ℚ) (og : Obstacle × Game) (fs : List PassFrame) : Obstacle × Game :=
  fs.foldl (fun og f => onXRFrame.obstacleStep headR og f.dt f.now f.lastJumpAt f.headLocal) og

/-! ## Scenarios -/

/-- The OVERHEAD_BAR of the end-to-end scenario at depth `z`, with the flag
`_scored` equal to `sc` and `active`, `visible` equal to `act`. -/
def barAt (z : ℚ) (sc act : Bool) : Obstacle :=
  { type := .OVERHEAD_BAR, active := act, visible := act, speed := 1.5,
    hx := 0.9, hy := 0.075, hz := 0.125, position := ⟨0, 0, z⟩,
    _aabbOffsetX := 0, requiresJump := false, _cleared := false, _scored := sc }

/-- The state of the bar of the end-to-end scenario and of the score after `k`
frames of its pass. -/
def barPass (game : Game) (k : ℕ) : Obstacle × Game :=
  if k ≤ 152 then (barAt (-3.5 + k / 40) false true, game)
  else if k ≤ 164 then (barAt (-3.5 + k / 40) true true, addScore game 1)
  else (barAt (5 / 8) true false, addScore game 1)

/-- Frame `k + 1` of `hurdleFramesNoJump`. -/
def hurdleFrameNoJump (k : ℕ) : PassFrame :=
  ⟨1 / 60, 10 + ((k : ℚ) + 1) / 60, 0, ⟨0, 1.6, 0⟩⟩

/-- The frames of a hurdle pass at 60 Hz during which no jump ever fires:
frame `k` (from 1 to 165) runs at time `10 + k/60` s, `player.lastJumpAt` keeps
its initial value 0 and the head stays at track-local `(0, 1.6, 0)`. -/
def hurdleFramesNoJump : List PassFrame :=
  (List.range 165).map hurdleFrameNoJump

/-- The OVERHEAD_BAR of the end-to-end scenario: spawned at `z = -3.5` (speed
1.5) and advanced by 140 calls of `update(1/60)`. -/
def barAfter140 : Obstacle :=
  (fun o => Obstacle.update o (1 / 60))^[140] ((Obstacle.new .OVERHEAD_BAR).spawn (-3.5))

/-! ## Runs of the program -/

/-- The operations that change the module state: the scoring functions, the
spawner and pool methods, the frame callback and the UI and session events. -/
inductive Op where
  | addScore (pts : ℚ)
  | addMiss
  | spawn (rnd : Rand)
  | spawnerUpdate (dt : ℚ) (rnd : Rand)
  | poolUpdate (dt : ℚ)
  | poolClear
  | frame (f : FrameInput)
  | select
  | placeClick
  | recenterClick
  | resetClick
  | startClick
  | sessionEnd
deriving DecidableEq

/-- The effect of one operation on the module state. -/
def Op.apply (s : State) : Op → State
  | .addScore pts => { s with game := Parcours.addScore s.game pts }
  | .addMiss => { s with game := Parcours.addMiss s.game }
  | .spawn rnd => spawner.spawn s rnd
  | .spawnerUpdate dt rnd => spawner.update s dt rnd
  | .poolUpdate dt => { s with pool := pool.update s.pool dt }
  | .poolClear => { s with pool := pool.clear s.pool }
  | .frame f => onXRFrame s f
  | .select => onSelectPlace s
  | .placeClick => btnPlace_click s
  | .recenterClick => btnRecenter_click s
  | .resetClick => btnReset_click s
  | .startClick => btnStart_click s
  | .sessionEnd => xrSession_end s

/-- The state after a sequence of operations. -/
def run (s : State) (ops : List Op) : State := ops.foldl Op.apply s

/-- Every obstacle of `pool.all` that is flagged active is referenced from
`pool.active`. -/
def FlaggedInActive (p : Pool) : Prop :=
  ∀ (i : ℕ) (o : Obstacle), p.all[i]? = some o → o.active = true → i ∈ p.active

/-- Whether the call `onXRFrame(t, frame)` in state `s` fires a jump event,
that is, executes the assignment `player.lastJumpAt = now`. -/
def jumpFiresInFrame (s : State) (f : FrameInput) : Bool :=
  match f.pose with
  | none => false
  | some head =>
    onXRFrame.jumpFires
      (onXRFrame.estimate s.trackRoot s.player (f.t * 0.001) head.y f.headLocal.x) (f.t * 0.001)

/-- The times `now` (in seconds) of the frames of a run at which a jump event
fires, in the order of the run. -/
def jumpTimes (s : State) : List Op → List ℚ
  | [] => []
  | .frame f :: rest =>
    (if jumpFiresInFrame s f then [f.t * 0.001] else []) ++ jumpTimes (onXRFrame s f) rest
  | op :: rest => jumpTimes (Op.apply s op) rest

/-- The timestamps `t` (in milliseconds) of the frames of a run, in order. -/
def frameTimes : List Op → List ℚ
  | [] => []
  | .frame f :: rest => f.t :: frameTimes rest
  | _ :: rest => frameTimes rest

/-- A frame at time `t` ms whose pose has the head at height `y` (no hit-test
result, the head over the track origin, 60 Hz default step). -/
def headFrame (t y : ℚ) : FrameInput :=
  { t := t, pose := some ⟨0, y, 0⟩, hit := false, headLocal := ⟨0, y, 0⟩, deltaTime := none,
    rnd := ⟨0, 0, 0, 0⟩ }

/-- A run with two jumps: 22 frames, 100 ms apart, with the head at rest at
1.6 m (calibration), then 6 frames in which the head rises by 0.4 m per
frame. -/
def jumpRun : List Op :=
  (List.range 22).map (fun k => Op.frame (headFrame (100 * (k : ℚ)) 1.6)) ++
  (List.range 6).map (fun k => Op.frame (headFrame (2200 + 100 * (k : ℚ)) (2 + 0.4 * (k : ℚ))))

/-- The calibration frames of `jumpRun`: 22 frames, 100 ms apart, with the head
at rest at 1.6 m. -/
def restFrames : List FrameInput :=
  (List.range 22).map (fun k => headFrame (100 * (k : ℚ)) 1.6)

/-- The estimator state of a player whose head has only been seen at height
`c`: the smoothed velocity is 0, the duck state is off, and every height the
estimator remembers (last sample, smoothed height, baseline, the mean of the
accumulator) is `c`. -/
def AtRest (c : ℚ) (p : Player) : Prop :=
  p.smoothVy = 0 ∧ p._duckOn = false ∧ p.DUCK_DELTA = 0.25 ∧ p.JUMP_VY = 1.2 ∧
  (∀ t, p.lastT = some t → p.lastY = some c) ∧ (∀ y, p.smoothY = some y → y = c) ∧
  (∀ b, p.baselineY = some b → b = c) ∧ (∀ a, p._acc = some a → a.sum = a.n * c)

/-- A run that places the track and brings an obstacle into play: start of
the session, a frame with a hit-test result, the placement, a spawn drawing an
OVERHEAD_BAR, one pool step, a score and a miss. -/
def spawnRun : List Op :=
  [.startClick,
   .frame { t := 0, pose := some ⟨0, 1.6, 0⟩, hit := true, headLocal := ⟨0, 1.6, 0⟩,
            deltaTime := none, rnd := ⟨0, 0, 0, 0⟩ },
   .select, .spawn ⟨0.1, 0, 0, 0.5⟩, .poolUpdate (1 / 60), .addScore 1, .addMiss]

/-- The frames of a clean pass at 60 Hz: 165 frames with the head at
track-local `(0, 0.5, 0)`. -/
def cleanPassFrames : List PassFrame := List.replicate 165 ⟨1 / 60, 0, 0, ⟨0, 0.5, 0⟩⟩

/-- The OVERHEAD_BAR after its first pass through `cleanPassFrames`: scored
once and recycled, ready for reuse by `pool.get`. -/
def barRecycled : Obstacle :=
  (obstaclePass 0.18 ((Obstacle.new .OVERHEAD_BAR).spawn (-3.5), Game.init) cleanPassFrames).1

/-- The frames of a gate pass at 60 Hz with the head held in the right lane
at track-local `(0.6, 0.9, 0)`. -/
def blockedLaneFrames : List PassFrame :=
  List.replicate 165 ⟨1 / 60, 0, 0, ⟨track.laneOffset, 0.9, 0⟩⟩

/-- Frame `k + 1` of `hurdleFramesWithJump`: time `10 + (k + 1)/60` s; a jump
event fired at 12.1 s (frame 126), so `player.lastJumpAt` is 0 before that
frame and 12.1 from it on. -/
def hurdleFrameWithJump (k : ℕ) : PassFrame :=
  ⟨1 / 60, 10 + ((k : ℚ) + 1) / 60, if 10 + ((k : ℚ) + 1) / 60 < 12.1 then 0 else 12.1,
    ⟨0, 1.6, 0⟩⟩

/-- The frames of a hurdle pass at 60 Hz during which the player jumps at
12.1 s, shortly before the hurdle enters the clearance window. -/
def hurdleFramesWithJump : List PassFrame :=
  (List.range 165).map hurdleFrameWithJump

/-- The next spawn interval computed at the end of `spawner.spawn()`, with the
track speed and the random draw as parameters:
`clamp(mapLinear(speed, 1.0, 2.5, 1.4, 0.9) + (u * 0.6 - 0.3), 0.75, 1.8)`. -/
def spawner.nextInterval (speed u : ℚ) : ℚ :=
  MathUtils.clamp (MathUtils.mapLinear speed 1.0 2.5 1.4 0.9 + (u * 0.6 - 0.3)) 0.75 1.8

/-- A frame at time `t` ms with a hit-test result and the head at height `y`
over the track origin. -/
def hitFrame (t y : ℚ) : FrameInput :=
  { t := t, pose := some ⟨0, y, 0⟩, hit := true, headLocal := ⟨0, y, 0⟩, deltaTime := none,
    rnd := ⟨0, 0, 0, 0⟩ }

/-- A run that stops in the middle of a calibration window: start of the
session, then 20 frames, 100 ms apart, with the head at 1.6 m. -/
def midCalibrationRun : List Op :=
  .startClick :: (List.range 20).map (fun (k : ℕ) => Op.frame (hitFrame (100 * (k : ℚ)) 1.6))

/-- The run `jumpRun` in placing mode: start of the session, 22 frames at rest
at 1.6 m, then 6 frames in which the head rises by 0.4 m per frame; jump
events fire at 2.3 s and 2.7 s. -/
def afterJumpsRun : List Op :=
  .startClick ::
    ((List.range 22).map (fun (k : ℕ) => Op.frame (hitFrame (100 * (k : ℚ)) 1.6)) ++
     (List.range 6).map
       (fun (k : ℕ) => Op.frame (hitFrame (2200 + 100 * (k : ℚ)) (2 + 0.4 * (k : ℚ)))))

/-- The samples (time `now` in seconds, raw head height) that a sequence of
frames feeds to the calibration: one per frame that has a pose. -/
def frameSamples (fs : List FrameInput) : List (ℚ × ℚ) :=
  fs.filterMap (fun f => f.pose.map (fun head => (f.t * 0.001, head.y)))

/-- The calibration condition on the samples accumulated so far, the last one
being the current frame's: more than 20 samples, and more than 2 s between the
first sample and the current one. -/
def calibrationDue (sm : List (ℚ × ℚ)) : Prop :=
  20 < sm.length ∧ ∃ a b, sm.head? = some a ∧ sm.getLast? = some b ∧ b.1 - a.1 > 2

/-- The accumulator `player._acc` that holds the samples `sm`: absent when
there are none, else their sum, their number and the time of the first. -/
def accOf (sm : List (ℚ × ℚ)) : Option Acc :=
  match sm with
  | [] => none
  | a :: _ => some { sum := (sm.map Prod.snd).sum, n := sm.length, t0 := a.1 }

/-- Twenty frames, 110 ms apart, with the head at 1.6 m: the last one is
2.09 s after the first. -/
def twentyFrames : List FrameInput :=
  (List.range 20).map (fun (k : ℕ) => headFrame (110 * (k : ℚ)) 1.6)

/-- A pool that holds one recycled OVERHEAD_BAR and nothing in play. -/
def poolWithRecycledBar : Pool := { all := [barRecycled], active := [] }

/-- The pool invariant: `pool.active` holds no reference twice, every
reference in it points to an obstacle of `pool.all` that is flagged active, and
every obstacle of `pool.all` flagged active is referenced from `pool.active`. -/
def PoolInv (p : Pool) : Prop :=
  p.active.Nodup ∧ (∀ i ∈ p.active, ∃ o, p.all[i]? = some o ∧ o.active = true) ∧
  FlaggedInActive p

/-- The frames among the operations of a run, in order. -/
def opFrames : List Op → List FrameInput
  | [] => []
  | .frame f :: rest => f :: opFrames rest
  | _ :: rest => opFrames rest

/-- The state that the placement after `midCalibrationRun` leaves. -/
def placedMidCalibration : State := onSelectPlace (run State.init midCalibrationRun)

/-- Four frames after that placement, 100 ms apart from 2.0 s on, with the
head at the constant height 1.0. -/
def framesAfterPlacement : List FrameInput :=
  [hitFrame 2000 1, hitFrame 2100 1, hitFrame 2200 1, hitFrame 2300 1]

/-! # Properties -/

/-! ## Geometry -/

theorem clamp_eq_lo {x a b : ℚ} (hab : a ≤ b) (h : x ≤ a) : clamp x a b = a := by
  unfold clamp
  rw [max_eq_right h, min_eq_left hab]

theorem clamp_eq_hi {x a b : ℚ} (hab : a ≤ b) (h : b ≤ x) : clamp x a b = b := by
  unfold clamp
  rw [max_eq_left (le_trans hab h), min_eq_right h]

theorem clamp_eq_self {x a b : ℚ} (h1 : a ≤ x) (h2 : x ≤ b) : clamp x a b = x := by
  unfold clamp
  rw [max_eq_left h1, min_eq_left h2]

/-- The distance from `x` to its clamp is at most `r` when `x` is within `r`
of the interval. -/
theorem clamp_dist_le {x a b r : ℚ} (hab : a ≤ b) (hr : 0 ≤ r) (h1 : a - r ≤ x)
    (h2 : x ≤ b + r) : (x - clamp x a b) * (x - clamp x a b) ≤ r * r := by
  rcases le_total x a with h | h
  · rw [clamp_eq_lo hab h]; nlinarith
  · rcases le_total x b with h' | h'
    · rw [clamp_eq_self h h']; nlinarith
    · rw [clamp_eq_hi hab h']; nlinarith

/-- The distance from `x` to its clamp exceeds `r` when `x` is more than `r`
outside the interval. -/
theorem clamp_dist_gt {x a b r : ℚ} (hab : a ≤ b) (hr : 0 ≤ r) (h : x < a - r ∨ b + r < x) :
    r * r < (x - clamp x a b) * (x - clamp x a b) := by
  rcases h with h | h
  · rw [clamp_eq_lo hab (by linarith)]; nlinarith
  · rw [clamp_eq_hi hab (by linarith)]; nlinarith

theorem sphereIntersectsAABB_eq_true_iff (c : Vec3) (r : ℚ) (mn mx : Vec3) :
    sphereIntersectsAABB c r mn mx = true ↔
      (c.x - clamp c.x mn.x mx.x) * (c.x - clamp c.x mn.x mx.x)
        + (c.y - clamp c.y mn.y mx.y) * (c.y - clamp c.y mn.y mx.y)
        + (c.z - clamp c.z mn.z mx.z) * (c.z - clamp c.z mn.z mx.z) ≤ r * r := by
  simp [sphereIntersectsAABB]

/-- A sphere whose centre is more than `r` outside the box on some axis does
not intersect the box. -/
theorem sphereIntersectsAABB_far (c : Vec3) (r : ℚ) (mn mx : Vec3)
    (hx : mn.x ≤ mx.x) (hy : mn.y ≤ mx.y) (hz : mn.z ≤ mx.z) (hr : 0 ≤ r)
    (hout : (c.x < mn.x - r ∨ mx.x + r < c.x) ∨ (c.y < mn.y - r ∨ mx.y + r < c.y)
      ∨ (c.z < mn.z - r ∨ mx.z + r < c.z)) :
    sphereIntersectsAABB c r mn mx = false := by
  rw [← Bool.not_eq_true, sphereIntersectsAABB_eq_true_iff, not_le]
  have ex := mul_self_nonneg (c.x - clamp c.x mn.x mx.x)
  have ey := mul_self_nonneg (c.y - clamp c.y mn.y mx.y)
  have ez := mul_self_nonneg (c.z - clamp c.z mn.z mx.z)
  rcases hout with h | h | h
  · have := clamp_dist_gt hx hr h; linarith
  · have := clamp_dist_gt hy hr h; linarith
  · have := clamp_dist_gt hz hr h; linarith

/-- The collision branch of the loop body for an obstacle that is not a hurdle. -/
theorem resolve_not_hurdle (now lj : ℚ) (c : Vec3) (r : ℚ) (ob : Obstacle) (game : Game)
    (ht : ob.type ≠ .HURDLE) :
    (onXRFrame.resolve now lj c r ob game).2.1 =
      if sphereIntersectsAABB c r ob.getAABB.1 ob.getAABB.2 then addMiss game
      else if ob.position.z > 0.3 ∧ !ob._scored then addScore game 1 else game := by
  unfold onXRFrame.resolve onXRFrame.recycleStep onXRFrame.collisionBranch
    onXRFrame.hurdleBranch
  simp only [ht, if_false, ne_eq, not_false_eq_true, if_true]
  split_ifs <;> simp_all

theorem update_iterate (dt : ℚ) (o : Obstacle) (h : o.active = true) (k : ℕ) :
    (fun o => Obstacle.update o dt)^[k] o =
      { o with position := { o.position with z := o.position.z + k * (o.speed * dt) } } := by
  induction k with
  | zero => simp
  | succ k ih =>
    rw [Function.iterate_succ_apply', ih]
    simp [Obstacle.update, h]
    ring

/-- C1 (evaluation at the failing input).  The OVERHEAD_BAR `barAfter140`,
spawned at `z = -3.5` with speed 1.5 and advanced by 140 steps of 1/60 s, is at
`z = 0`; its
`getAABB` box is centred on height 0 (`y` from -0.075 to 0.075), so a head
sphere of radius 0.18 centred at track-local `(0, 1.35, 0)` does not overlap it
and the loop body of the frame loop leaves the score state as it was: no miss
is registered. -/
theorem overhead_bar_box_misses_head_at_bar_height :
    barAfter140.speed = 1.5 ∧ barAfter140.position.z = 0 ∧
    barAfter140.getAABB = (⟨-0.9, -0.075, -0.125⟩, ⟨0.9, 0.075, 0.125⟩) ∧
    sphereIntersectsAABB ⟨0, 1.35, 0⟩ 0.18 barAfter140.getAABB.1 barAfter140.getAABB.2 = false ∧
    ∀ (now lastJumpAt : ℚ) (game : Game),
      (onXRFrame.resolve now lastJumpAt ⟨0, 1.35, 0⟩ 0.18 barAfter140 game).2.1 = game := by
  have hb : barAfter140
      = { (Obstacle.new .OVERHEAD_BAR).spawn (-3.5) with position := ⟨0, 0, 0⟩ } := by
    unfold barAfter140
    rw [update_iterate _ _ (by simp [Obstacle.spawn])]
    simp [Obstacle.spawn, Obstacle.new, track]
    norm_num
  have hbox : barAfter140.getAABB = (⟨-0.9, -0.075, -0.125⟩, ⟨0.9, 0.075, 0.125⟩) := by
    rw [hb]; simp [Obstacle.getAABB, Obstacle.spawn, Obstacle.new, track]; norm_num
  have hs : sphereIntersectsAABB ⟨0, 1.35, 0⟩ 0.18 barAfter140.getAABB.1 barAfter140.getAABB.2
      = false := by
    rw [hbox]; simp [sphereIntersectsAABB, clamp]; norm_num
  refine ⟨?_, ?_, hbox, hs, ?_⟩
  · rw [hb]; simp [Obstacle.spawn, Obstacle.new, track]
  · rw [hb]
  · intro now lj game
    rw [resolve_not_hurdle _ _ _ _ _ _ (by rw [hb]; simp [Obstacle.spawn, Obstacle.new]), hs]
    simp [hb]
    intro h; norm_num at h

/-- C2 (counterexample).  For the box of an OVERHEAD_BAR at `z = 0` and the head
radius 0.18, the centre `(1.08, 0.255, 0.305)` lies within the box expanded by
the radius on every axis, yet `sphereIntersectsAABB` is false: the centre is
at distance `0.18 * √3` from the nearest corner. -/
theorem expanded_box_corner_not_intersecting :
    ((Obstacle.new .OVERHEAD_BAR).spawn 0).type = .OVERHEAD_BAR ∧
    ((Obstacle.new .OVERHEAD_BAR).spawn 0).getAABB
      = (⟨-0.9, -0.075, -0.125⟩, ⟨0.9, 0.075, 0.125⟩) ∧
    ((-0.9 : ℚ) - 0.18 ≤ 1.08 ∧ (1.08 : ℚ) ≤ 0.9 + 0.18) ∧
    ((-0.075 : ℚ) - 0.18 ≤ 0.255 ∧ (0.255 : ℚ) ≤ 0.075 + 0.18) ∧
    ((-0.125 : ℚ) - 0.18 ≤ 0.305 ∧ (0.305 : ℚ) ≤ 0.125 + 0.18) ∧
    sphereIntersectsAABB ⟨1.08, 0.255, 0.305⟩ 0.18
      ((Obstacle.new .OVERHEAD_BAR).spawn 0).getAABB.1
      ((Obstacle.new .OVERHEAD_BAR).spawn 0).getAABB.2 = false := by
  simp [Obstacle.getAABB, Obstacle.spawn, Obstacle.new, track, sphereIntersectsAABB, clamp]
  norm_num

theorem clamp_dist_eq_excess {x a b : ℚ} (hab : a ≤ b) :
    (x - clamp x a b) * (x - clamp x a b) = excess x a b * excess x a b := by
  unfold excess
  rcases lt_or_le x a with h | h
  · rw [clamp_eq_lo hab (le_of_lt h), if_pos h]; ring
  · rcases lt_or_le b x with h' | h'
    · rw [clamp_eq_hi hab (le_of_lt h'), if_neg (not_lt.mpr h), if_pos h']
    · rw [clamp_eq_self h h', if_neg (not_lt.mpr h), if_neg (not_lt.mpr h')]; ring

/-- On a box with `min ≤ max`, `sphereIntersectsAABB` holds exactly when the
centre is within Euclidean distance `r` of the box. -/
theorem sphereIntersectsAABB_iff_boxDistSq (c : Vec3) (r : ℚ) (mn mx : Vec3)
    (hx : mn.x ≤ mx.x) (hy : mn.y ≤ mx.y) (hz : mn.z ≤ mx.z) :
    sphereIntersectsAABB c r mn mx = true ↔ boxDistSq c mn mx ≤ r * r := by
  rw [sphereIntersectsAABB_eq_true_iff, clamp_dist_eq_excess hx, clamp_dist_eq_excess hy,
    clamp_dist_eq_excess hz]
  rfl

/-- C2 (amended).  For every OVERHEAD_BAR (type OVERHEAD_BAR with the
half-extents its constructor sets, at any position), every radius `r` and
every head centre `c` whose Euclidean distance to the box of `getAABB` is at
most `r` (`boxDistSq ≤ r * r`: `c` is within the expanded box, but not in the
part beyond its edges and corners that is farther than `r` from the box),
`sphereIntersectsAABB` is true and the loop body of the frame loop registers a
miss (`addMiss`). -/
theorem overhead_bar_hit_registers_miss (ob : Obstacle) (c : Vec3) (r now lastJumpAt : ℚ)
    (game : Game) (htype : ob.type = .OVERHEAD_BAR)
    (hext : ob.hx = (Obstacle.new .OVERHEAD_BAR).hx ∧ ob.hy = (Obstacle.new .OVERHEAD_BAR).hy
      ∧ ob.hz = (Obstacle.new .OVERHEAD_BAR).hz)
    (hdist : boxDistSq c ob.getAABB.1 ob.getAABB.2 ≤ r * r) :
    sphereIntersectsAABB c r ob.getAABB.1 ob.getAABB.2 = true ∧
    (onXRFrame.resolve now lastJumpAt c r ob game).2.1 = addMiss game := by
  have hbx : ob.getAABB.1.x ≤ ob.getAABB.2.x := by
    simp [Obstacle.getAABB, htype, hext.1, Obstacle.new, track]; linarith
  have hby : ob.getAABB.1.y ≤ ob.getAABB.2.y := by
    simp [Obstacle.getAABB, htype, hext.2.1, Obstacle.new, track]; norm_num
  have hbz : ob.getAABB.1.z ≤ ob.getAABB.2.z := by
    simp [Obstacle.getAABB, htype, hext.2.2, Obstacle.new, track]; linarith
  have hs : sphereIntersectsAABB c r ob.getAABB.1 ob.getAABB.2 = true :=
    (sphereIntersectsAABB_iff_boxDistSq c r _ _ hbx hby hbz).mpr hdist
  refine ⟨hs, ?_⟩
  rw [resolve_not_hurdle _ _ _ _ _ _ (by rw [htype]; decide), hs]
  simp

/-- Witness of `overhead_bar_hit_registers_miss`: the bar at `z = 0` and a head
of radius 0.18 whose centre is 0.1 above the top face of the box. -/
theorem overhead_bar_hit_registers_miss_witness :
    boxDistSq ⟨0, 0.175, 0⟩ ((Obstacle.new .OVERHEAD_BAR).spawn 0).getAABB.1
        ((Obstacle.new .OVERHEAD_BAR).spawn 0).getAABB.2 = 0.01 ∧
    sphereIntersectsAABB ⟨0, 0.175, 0⟩ 0.18 ((Obstacle.new .OVERHEAD_BAR).spawn 0).getAABB.1
        ((Obstacle.new .OVERHEAD_BAR).spawn 0).getAABB.2 = true ∧
    (onXRFrame.resolve 10 0 ⟨0, 0.175, 0⟩ 0.18 ((Obstacle.new .OVERHEAD_BAR).spawn 0)
        Game.init).2.1 = addMiss Game.init :=
  ⟨by decide!,
    overhead_bar_hit_registers_miss ((Obstacle.new .OVERHEAD_BAR).spawn 0) ⟨0, 0.175, 0⟩ 0.18 10 0
      Game.init (by decide!) (by decide!) (by decide!)⟩

/-- C3.  For every box with `min ≤ max` componentwise, every radius `r ≥ 0` and
every head centre `c` that on at least one axis lies more than `r` outside the
box, `sphereIntersectsAABB` is false; hence for every obstacle that is not a
hurdle and has this box, the loop body of the frame loop registers no miss (the
score state is left as it was or a point is awarded, `misses` is unchanged). -/
theorem sphere_far_from_box_no_miss (c : Vec3) (r : ℚ) (mn mx : Vec3)
    (hx : mn.x ≤ mx.x) (hy : mn.y ≤ mx.y) (hz : mn.z ≤ mx.z) (hr : 0 ≤ r)
    (hout : (c.x < mn.x - r ∨ mx.x + r < c.x) ∨ (c.y < mn.y - r ∨ mx.y + r < c.y)
      ∨ (c.z < mn.z - r ∨ mx.z + r < c.z)) :
    sphereIntersectsAABB c r mn mx = false ∧
    ∀ (ob : Obstacle) (now lastJumpAt : ℚ) (game : Game),
      ob.type ≠ .HURDLE → ob.getAABB = (mn, mx) →
        ((onXRFrame.resolve now lastJumpAt c r ob game).2.1 = game ∨
          (onXRFrame.resolve now lastJumpAt c r ob game).2.1 = addScore game 1) ∧
        (onXRFrame.resolve now lastJumpAt c r ob game).2.1.misses = game.misses := by
  have hs := sphereIntersectsAABB_far c r mn mx hx hy hz hr hout
  refine ⟨hs, ?_⟩
  intro ob now lj game ht hbox
  rw [resolve_not_hurdle _ _ _ _ _ _ ht, hbox]
  simp only [hs, Bool.false_eq_true, if_false]
  split_ifs <;> simp [addScore]

/-- Witness of `sphere_far_from_box_no_miss`: the box of an OVERHEAD_BAR at
`z = 0` and a head of radius 0.18 at height 0.5. -/
theorem sphere_far_from_box_no_miss_witness :
    sphereIntersectsAABB ⟨0, 0.5, 0⟩ 0.18 ⟨-0.9, -0.075, -0.125⟩ ⟨0.9, 0.075, 0.125⟩ = false ∧
    ∀ (ob : Obstacle) (now lastJumpAt : ℚ) (game : Game),
      ob.type ≠ .HURDLE → ob.getAABB = (⟨-0.9, -0.075, -0.125⟩, ⟨0.9, 0.075, 0.125⟩) →
        ((onXRFrame.resolve now lastJumpAt ⟨0, 0.5, 0⟩ 0.18 ob game).2.1 = game ∨
          (onXRFrame.resolve now lastJumpAt ⟨0, 0.5, 0⟩ 0.18 ob game).2.1 = addScore game 1) ∧
        (onXRFrame.resolve now lastJumpAt ⟨0, 0.5, 0⟩ 0.18 ob game).2.1.misses = game.misses :=
  sphere_far_from_box_no_miss ⟨0, 0.5, 0⟩ 0.18 ⟨-0.9, -0.075, -0.125⟩ ⟨0.9, 0.075, 0.125⟩
    (by norm_num) (by norm_num) (by norm_num) (by norm_num) (by norm_num)

/-! ## Hurdle clearance and scoring -/

/-- C6.  For every HURDLE that is not yet cleared: when its `z` lies inside the
clearance window (`-0.2 < z < 0.3`), `checkHurdleClear(now)` returns `true` and
marks the instance cleared if `now - lastJumpAt < 0.35`, and otherwise returns
`false` and leaves the instance as it was (so it returns `true` if and only if
`now - lastJumpAt < 0.35`); when `z` is outside the window it returns `null`
and changes nothing. -/
theorem checkHurdleClear_window (o : Obstacle) (now lastJumpAt : ℚ)
    (_htype : o.type = .HURDLE) (hreq : o.requiresJump = (Obstacle.new .HURDLE).requiresJump)
    (hcl : o._cleared = false) :
    (-0.2 < o.position.z ∧ o.position.z < 0.3 →
      (now - lastJumpAt < 0.35 →
        o.checkHurdleClear now lastJumpAt = ({ o with _cleared := true }, some true)) ∧
      (¬ now - lastJumpAt < 0.35 → o.checkHurdleClear now lastJumpAt = (o, some false)) ∧
      ((o.checkHurdleClear now lastJumpAt).2 = some true ↔ now - lastJumpAt < 0.35) ∧
      ((o.checkHurdleClear now lastJumpAt).1._cleared = true ↔ now - lastJumpAt < 0.35)) ∧
    (¬ (-0.2 < o.position.z ∧ o.position.z < 0.3) →
      o.checkHurdleClear now lastJumpAt = (o, none)) := by
  have hreq' : o.requiresJump = true := by rw [hreq]; simp [Obstacle.new]
  constructor
  · intro hw
    by_cases hj : now - lastJumpAt < 0.35
    · simp [Obstacle.checkHurdleClear, hreq', hcl, hw.1, hw.2, hj]
    · simp [Obstacle.checkHurdleClear, hreq', hcl, hw.1, hw.2, hj]
  · intro hw
    simp only [Obstacle.checkHurdleClear, hreq', hcl]
    simp only [gt_iff_lt, hw]
    simp

/-- Witness of `checkHurdleClear_window`: a freshly spawned hurdle. -/
theorem checkHurdleClear_window_witness :
    (-0.2 < ((Obstacle.new .HURDLE).spawn 0).position.z ∧
        ((Obstacle.new .HURDLE).spawn 0).position.z < 0.3 →
      ((10 : ℚ) - 9.9 < 0.35 →
        ((Obstacle.new .HURDLE).spawn 0).checkHurdleClear 10 9.9
          = ({ (Obstacle.new .HURDLE).spawn 0 with _cleared := true }, some true)) ∧
      (¬ (10 : ℚ) - 9.9 < 0.35 →
        ((Obstacle.new .HURDLE).spawn 0).checkHurdleClear 10 9.9
          = ((Obstacle.new .HURDLE).spawn 0, some false)) ∧
      ((((Obstacle.new .HURDLE).spawn 0).checkHurdleClear 10 9.9).2 = some true
        ↔ (10 : ℚ) - 9.9 < 0.35) ∧
      ((((Obstacle.new .HURDLE).spawn 0).checkHurdleClear 10 9.9).1._cleared = true
        ↔ (10 : ℚ) - 9.9 < 0.35)) ∧
    (¬ (-0.2 < ((Obstacle.new .HURDLE).spawn 0).position.z ∧
        ((Obstacle.new .HURDLE).spawn 0).position.z < 0.3) →
      ((Obstacle.new .HURDLE).spawn 0).checkHurdleClear 10 9.9
        = ((Obstacle.new .HURDLE).spawn 0, none)) :=
  checkHurdleClear_window ((Obstacle.new .HURDLE).spawn 0) 10 9.9
    (by simp [Obstacle.spawn, Obstacle.new]) (by simp [Obstacle.spawn, Obstacle.new])
    (by simp [Obstacle.spawn])

/-- C7.  For every game state and every points value `p`: `addScore(p)` yields
`score + p` and `combo + 1` with `misses` unchanged; `addMiss()` yields
`misses + 1` and `combo = 0` with `score` unchanged; `resetGameStats()` yields
`score = 0`, `combo = 0`, `misses = 0`. -/
theorem scoring_operations (game : Game) (p : ℚ) :
    ((addScore game p).score = game.score + p ∧ (addScore game p).combo = game.combo + 1 ∧
      (addScore game p).misses = game.misses) ∧
    ((addMiss game).misses = game.misses + 1 ∧ (addMiss game).combo = 0 ∧
      (addMiss game).score = game.score) ∧
    ((resetGameStats game).score = 0 ∧ (resetGameStats game).combo = 0 ∧
      (resetGameStats game).misses = 0) := by
  simp [addScore, addMiss, resetGameStats]

/-! ## The pass of an overhead bar -/

theorem barAt_spawn (z : ℚ) : (Obstacle.new .OVERHEAD_BAR).spawn z = barAt z false true := by
  simp [barAt, Obstacle.spawn, Obstacle.new, track]
  norm_num

theorem barAt_no_hit (z : ℚ) (sc act : Bool) :
    sphereIntersectsAABB ⟨0, 0.5, 0⟩ 0.18 (barAt z sc act).getAABB.1 (barAt z sc act).getAABB.2
      = false := by
  apply sphereIntersectsAABB_far
  · simp [barAt, Obstacle.getAABB]; linarith
  · simp [barAt, Obstacle.getAABB]; norm_num
  · simp [barAt, Obstacle.getAABB]; linarith
  · norm_num
  · right; left; right
    simp [barAt, Obstacle.getAABB]; norm_num

theorem barAt_update (z : ℚ) (sc : Bool) :
    (barAt z sc true).update (1 / 60) = barAt (z + 1 / 40) sc true := by
  simp [barAt, Obstacle.update]; norm_num

theorem resolve_of_not_hurdle (now lj : ℚ) (c : Vec3) (r : ℚ) (ob : Obstacle) (game : Game)
    (ht : ob.type ≠ .HURDLE) :
    onXRFrame.resolve now lj c r ob game =
      if sphereIntersectsAABB c r ob.getAABB.1 ob.getAABB.2 then
        onXRFrame.recycleStep (ob, addMiss game)
      else if ob.position.z > 0.3 ∧ ob._scored = false then
        onXRFrame.recycleStep ({ ob with _scored := true }, addScore game 1)
      else onXRFrame.recycleStep (ob, game) := by
  unfold onXRFrame.resolve onXRFrame.collisionBranch onXRFrame.hurdleBranch
  simp only [ht, if_false, ne_eq, not_false_eq_true, if_true]
  split_ifs <;> simp_all

theorem barAt_resolve (z : ℚ) (sc : Bool) (game : Game) (now lj : ℚ) (h6 : ¬ z > 0.6) :
    onXRFrame.resolve now lj ⟨0, 0.5, 0⟩ 0.18 (barAt z sc true) game =
      if z > 0.3 ∧ sc = false then (barAt z true true, addScore game 1, false)
      else (barAt z sc true, game, false) := by
  rw [resolve_of_not_hurdle _ _ _ _ _ _ (by simp [barAt]), barAt_no_hit]
  simp only [Bool.false_eq_true, if_false, onXRFrame.recycleStep]
  have hz : (barAt z sc true).position.z = z := rfl
  have hsc : (barAt z sc true)._scored = sc := rfl
  simp only [hz, hsc, h6, if_false]
  split_ifs with h
  · rfl
  · rfl

theorem barAt_step (z : ℚ) (sc : Bool) (game : Game) (now lj : ℚ) :
    onXRFrame.obstacleStep 0.18 (barAt z sc true, game) (1 / 60) now lj ⟨0, 0.5, 0⟩ =
      if z + 1 / 40 > 0.6 then (barAt (z + 1 / 40) sc false, game)
      else if z + 1 / 40 > 0.3 ∧ sc = false then (barAt (z + 1 / 40) true true, addScore game 1)
      else (barAt (z + 1 / 40) sc true, game) := by
  unfold onXRFrame.obstacleStep
  have ha : (barAt z sc true).active = true := rfl
  have hz : (barAt (z + 1 / 40) sc true).position.z = z + 1 / 40 := rfl
  simp only [ha, barAt_update, hz, Bool.not_true, Bool.false_eq_true, if_false]
  by_cases h6 : z + 1 / 40 > 0.6
  · simp only [h6, if_true]; rfl
  · simp only [h6, if_false, barAt_resolve _ _ _ _ _ h6]
    split_ifs <;> rfl

theorem obstacleStep_inactive (headR : ℚ) (og : Obstacle × Game) (dt now lj : ℚ) (h : Vec3)
    (ha : og.1.active = false) : onXRFrame.obstacleStep headR og dt now lj h = og := by
  simp [onXRFrame.obstacleStep, ha]

theorem obstaclePass_snoc (headR : ℚ) (og : Obstacle × Game) (fs : List PassFrame)
    (f : PassFrame) :
    obstaclePass headR og (fs ++ [f]) =
      onXRFrame.obstacleStep headR (obstaclePass headR og fs) f.dt f.now f.lastJumpAt
        f.headLocal := by
  simp [obstaclePass, List.foldl_append]

theorem barPass_succ (game : Game) (k : ℕ) (now lj : ℚ) :
    onXRFrame.obstacleStep 0.18 (barPass game k) (1 / 60) now lj ⟨0, 0.5, 0⟩
      = barPass game (k + 1) := by
  have e : (-3.5 : ℚ) + (k : ℚ) / 40 + 1 / 40 = -3.5 + ((k + 1 : ℕ) : ℚ) / 40 := by
    push_cast; ring
  rcases Nat.lt_or_ge k 152 with h | h
  · have n1 : k ≤ 152 := by omega
    have n2 : k + 1 ≤ 152 := by omega
    have hq : ((k + 1 : ℕ) : ℚ) ≤ 152 := by exact_mod_cast n2
    simp only [barPass, n1, n2, if_true, barAt_step, e]
    split_ifs with a b
    · exfalso; norm_num at a; linarith
    · exfalso; obtain ⟨b1, -⟩ := b; norm_num at b1; linarith
    · rfl
  rcases Nat.lt_or_ge k 164 with h' | h'
  · have n1 : ¬ k + 1 ≤ 152 := by omega
    have n3 : k ≤ 164 := by omega
    have n4 : k + 1 ≤ 164 := by omega
    have hq : ((k + 1 : ℕ) : ℚ) ≤ 164 := by exact_mod_cast n4
    have hq' : (153 : ℚ) ≤ ((k + 1 : ℕ) : ℚ) := by exact_mod_cast (by omega : 153 ≤ k + 1)
    have c3 : (-3.5 : ℚ) + ((k + 1 : ℕ) : ℚ) / 40 > 0.3 := by norm_num; linarith
    have c6 : ¬ ((-3.5 : ℚ) + ((k + 1 : ℕ) : ℚ) / 40 > 0.6) := by
      rw [not_lt]; norm_num; linarith
    rcases Nat.eq_or_lt_of_le h with h | h
    · subst h
      simp only [barPass, le_refl, n1, n4, if_true, if_false, barAt_step, e, c6, c3, and_self]
    · have n0 : ¬ k ≤ 152 := by omega
      simp only [barPass, n0, n1, n3, n4, if_true, if_false, barAt_step, e, c6, c3, true_and,
        Bool.true_eq_false]
  have n0 : ¬ k ≤ 152 := by omega
  have n1 : ¬ k + 1 ≤ 152 := by omega
  have n4 : ¬ k + 1 ≤ 164 := by omega
  rcases Nat.eq_or_lt_of_le h' with h' | h'
  · subst h'
    have e2 : (-3.5 : ℚ) + ((164 + 1 : ℕ) : ℚ) / 40 = 5 / 8 := by norm_num
    simp only [barPass, n0, n1, n4, le_refl, if_true, barAt_step, e, if_false, e2]
    rw [if_pos (by norm_num)]
  · have n3 : ¬ k ≤ 164 := by omega
    simp only [barPass, n0, n1, n3, n4, if_false]
    exact obstacleStep_inactive _ _ _ _ _ _ (by simp [barAt])

theorem barPass_eq (game : Game) (fs : List PassFrame)
    (hfs : ∀ f ∈ fs, f.dt = 1 / 60 ∧ f.headLocal = ⟨0, 0.5, 0⟩) :
    obstaclePass 0.18 ((Obstacle.new .OVERHEAD_BAR).spawn (-3.5), game) fs
      = barPass game fs.length := by
  induction fs using List.reverseRecOn with
  | nil => simp [obstaclePass, barPass, barAt_spawn]
  | append_singleton fs f ih =>
    rw [obstaclePass_snoc, ih (fun g hg => hfs g (List.mem_append_left _ hg)),
      (hfs f (by simp)).1, (hfs f (by simp)).2, barPass_succ]
    simp

/-- C4.  A freshly constructed OVERHEAD_BAR spawned at `z = -3.5` (its speed is
1.5) is advanced through any number of frames of `dt = 1/60` with the head
sphere of radius 0.18 at track-local `(0, 0.5, 0)`.  After the frames `fs`
(any number of them): no miss has been registered; the bar is still active
exactly when fewer than 165 frames have run (it is recycled in frame 165);
while active its depth is `-3.5 + n/40`; its depth exceeds 0.3 exactly from
frame 153 on; before frame 153 the score state is untouched, and from frame 153
on it is `addScore(1)` of the initial one: score + 1, combo + 1, awarded once,
in the first frame in which `z > 0.3`. -/
theorem overhead_bar_clean_pass_scores_once (game : Game) (fs : List PassFrame)
    (hfs : ∀ f ∈ fs, f.dt = 1 / 60 ∧ f.headLocal = ⟨0, 0.5, 0⟩) :
    ((Obstacle.new .OVERHEAD_BAR).spawn (-3.5)).speed = 1.5 ∧
    (obstaclePass 0.18 ((Obstacle.new .OVERHEAD_BAR).spawn (-3.5), game) fs).2.misses
      = game.misses ∧
    ((obstaclePass 0.18 ((Obstacle.new .OVERHEAD_BAR).spawn (-3.5), game) fs).1.active = true
      ↔ fs.length < 165) ∧
    (fs.length < 165 →
      (obstaclePass 0.18 ((Obstacle.new .OVERHEAD_BAR).spawn (-3.5), game) fs).1.position.z
        = -3.5 + fs.length / 40) ∧
    ((obstaclePass 0.18 ((Obstacle.new .OVERHEAD_BAR).spawn (-3.5), game) fs).1.position.z > 0.3
      ↔ 153 ≤ fs.length) ∧
    (fs.length < 153 →
      (obstaclePass 0.18 ((Obstacle.new .OVERHEAD_BAR).spawn (-3.5), game) fs).2 = game) ∧
    (153 ≤ fs.length →
      (obstaclePass 0.18 ((Obstacle.new .OVERHEAD_BAR).spawn (-3.5), game) fs).2
        = addScore game 1 ∧
      (obstaclePass 0.18 ((Obstacle.new .OVERHEAD_BAR).spawn (-3.5), game) fs).2.score
        = game.score + 1 ∧
      (obstaclePass 0.18 ((Obstacle.new .OVERHEAD_BAR).spawn (-3.5), game) fs).2.combo
        = game.combo + 1) := by
  rw [barPass_eq game fs hfs]
  refine ⟨by rw [barAt_spawn]; rfl, ?_, ?_, ?_, ?_, ?_, ?_⟩
  · unfold barPass; split_ifs <;> rfl
  · unfold barPass
    split_ifs with h1 h2
    · simp [barAt]; omega
    · simp [barAt]; omega
    · simp [barAt]; omega
  · intro h
    unfold barPass
    split_ifs with h1 h2
    · rfl
    · rfl
    · omega
  · unfold barPass
    split_ifs with h1 h2
    · have hq : (fs.length : ℚ) ≤ 152 := by exact_mod_cast h1
      simp only [barAt]
      constructor
      · intro h; norm_num at h; linarith
      · intro h; omega
    · have hq : (153 : ℚ) ≤ (fs.length : ℚ) := by exact_mod_cast (by omega : 153 ≤ fs.length)
      simp only [barAt]
      constructor
      · intro _; omega
      · intro _; norm_num; linarith
    · simp only [barAt]
      constructor
      · intro _; omega
      · intro _; norm_num
  · intro h
    unfold barPass
    rw [if_pos (by omega)]
  · intro h
    unfold barPass
    rw [if_neg (by omega)]
    split_ifs <;> simp [addScore]

/-- Witness of `overhead_bar_clean_pass_scores_once`: 153 frames at 60 Hz. -/
theorem overhead_bar_clean_pass_scores_once_witness :
    (obstaclePass 0.18 ((Obstacle.new .OVERHEAD_BAR).spawn (-3.5), Game.init)
      (List.replicate 153 ⟨1 / 60, 0, 0, ⟨0, 0.5, 0⟩⟩)).2 = addScore Game.init 1 :=
  ((overhead_bar_clean_pass_scores_once Game.init (List.replicate 153 ⟨1 / 60, 0, 0, ⟨0, 0.5, 0⟩⟩)
    (by intro f hf; rw [List.eq_of_mem_replicate hf]; exact ⟨rfl, rfl⟩)).2.2.2.2.2.2
      (by simp)).1

/-! ## Passes of a single obstacle -/

theorem checkHurdleClear_kinematics (o : Obstacle) (now lj : ℚ) :
    (o.checkHurdleClear now lj).1.position = o.position ∧
    (o.checkHurdleClear now lj).1.speed = o.speed ∧
    (o.checkHurdleClear now lj).1.type = o.type ∧
    (o.checkHurdleClear now lj).1.active = o.active ∧
    (o.checkHurdleClear now lj).1.requiresJump = o.requiresJump := by
  unfold Obstacle.checkHurdleClear
  dsimp only
  split_ifs <;> simp

theorem hurdleBranch_kinematics (now lj : ℚ) (og : Obstacle × Game) :
    (onXRFrame.hurdleBranch now lj og).1.position = og.1.position ∧
    (onXRFrame.hurdleBranch now lj og).1.speed = og.1.speed ∧
    (onXRFrame.hurdleBranch now lj og).1.type = og.1.type ∧
    (onXRFrame.hurdleBranch now lj og).1.active = og.1.active ∧
    (onXRFrame.hurdleBranch now lj og).1.requiresJump = og.1.requiresJump := by
  have k := checkHurdleClear_kinematics og.1 now lj
  unfold onXRFrame.hurdleBranch
  dsimp only
  split_ifs <;> first | exact k | simp

theorem collisionBranch_kinematics (c : Vec3) (r : ℚ) (og : Obstacle × Game) :
    (onXRFrame.collisionBranch c r og).1.position = og.1.position ∧
    (onXRFrame.collisionBranch c r og).1.speed = og.1.speed ∧
    (onXRFrame.collisionBranch c r og).1.type = og.1.type ∧
    (onXRFrame.collisionBranch c r og).1.active = og.1.active ∧
    (onXRFrame.collisionBranch c r og).1.requiresJump = og.1.requiresJump := by
  unfold onXRFrame.collisionBranch
  dsimp only
  split_ifs <;> simp

/-- The loop body keeps an obstacle where it is and as fast as it is, and
deactivates it exactly when it is behind the far threshold. -/
theorem resolve_kinematics (now lj : ℚ) (c : Vec3) (r : ℚ) (ob : Obstacle) (game : Game) :
    (onXRFrame.resolve now lj c r ob game).1.position = ob.position ∧
    (onXRFrame.resolve now lj c r ob game).1.speed = ob.speed ∧
    (onXRFrame.resolve now lj c r ob game).1.type = ob.type ∧
    (onXRFrame.resolve now lj c r ob game).1.active
      = (if ob.position.z > 0.6 then false else ob.active) := by
  obtain ⟨a1, a2, a3, a4, -⟩ := hurdleBranch_kinematics now lj (ob, game)
  obtain ⟨b1, b2, b3, b4, -⟩ :=
    collisionBranch_kinematics c r (onXRFrame.hurdleBranch now lj (ob, game))
  unfold onXRFrame.resolve onXRFrame.recycleStep
  rw [b1, a1]
  split_ifs
  · simp [Obstacle.recycle, b1, b2, b3, a1, a2, a3]
  · simp [b1, b2, b3, b4, a1, a2, a3, a4]

theorem update_kinematics (o : Obstacle) (dt : ℚ) (ha : o.active = true) :
    (o.update dt).position.z = o.position.z + o.speed * dt ∧ (o.update dt).speed = o.speed ∧
    (o.update dt).type = o.type ∧ (o.update dt).active = true := by
  simp [Obstacle.update, ha]

/-- One frame moves an active obstacle by `speed * dt` and recycles it exactly
when it is then behind the far threshold. -/
theorem obstacleStep_kinematics (headR : ℚ) (og : Obstacle × Game) (dt now lj : ℚ) (h : Vec3)
    (ha : og.1.active = true) :
    (onXRFrame.obstacleStep headR og dt now lj h).1.position.z
      = og.1.position.z + og.1.speed * dt ∧
    (onXRFrame.obstacleStep headR og dt now lj h).1.speed = og.1.speed ∧
    (onXRFrame.obstacleStep headR og dt now lj h).1.type = og.1.type ∧
    (onXRFrame.obstacleStep headR og dt now lj h).1.active
      = !decide (og.1.position.z + og.1.speed * dt > 0.6) := by
  obtain ⟨u1, u2, u3, u4⟩ := update_kinematics og.1 dt ha
  obtain ⟨k1, k2, k3, k4⟩ := resolve_kinematics now lj h headR (og.1.update dt) og.2
  unfold onXRFrame.obstacleStep
  simp only [ha, Bool.not_true, Bool.false_eq_true, if_false]
  by_cases h6 : (og.1.update dt).position.z > 0.6
  · simp only [h6, if_true]
    rw [u1] at h6
    simp [Obstacle.recycle, u1, u2, u3, h6]
  · simp only [h6, if_false] at k4 ⊢
    rw [k1, k2, k3, k4, u1, u2, u3, u4]
    rw [u1] at h6
    simp [h6]

/-- Before it reaches the far threshold, an obstacle of speed 1.5 advanced at
60 Hz stays active and has moved `1/40` per frame. -/
theorem obstaclePass_kinematics (headR : ℚ) (o : Obstacle) (game : Game) (fs : List PassFrame)
    (ha : o.active = true) (hs : o.speed = 1.5) (hdt : ∀ f ∈ fs, f.dt = 1 / 60)
    (hle : o.position.z + fs.length / 40 ≤ 0.6) :
    (obstaclePass headR (o, game) fs).1.active = true ∧
    (obstaclePass headR (o, game) fs).1.speed = 1.5 ∧
    (obstaclePass headR (o, game) fs).1.type = o.type ∧
    (obstaclePass headR (o, game) fs).1.position.z = o.position.z + fs.length / 40 := by
  induction fs using List.reverseRecOn with
  | nil => simp [obstaclePass, ha, hs]
  | append_singleton fs f ih =>
    have hlen : ((fs ++ [f]).length : ℚ) = fs.length + 1 := by simp
    rw [hlen] at hle ⊢
    obtain ⟨i1, i2, i3, i4⟩ := ih (fun g hg => hdt g (List.mem_append_left _ hg)) (by linarith)
    have k := obstacleStep_kinematics headR (obstaclePass headR (o, game) fs) f.dt f.now
      f.lastJumpAt f.headLocal i1
    rw [obstaclePass_snoc]
    obtain ⟨k1, k2, k3, k4⟩ := k
    rw [k1, k2, k3, k4, i2, i3, i4, hdt f (by simp)]
    refine ⟨?_, rfl, rfl, by ring⟩
    simp only [Bool.not_eq_true', decide_eq_false_iff_not, not_lt]
    linarith

theorem hurdleBranch_without_jump (now lj : ℚ) (og : Obstacle × Game)
    (hreq : og.1.requiresJump = true) (hcl : og.1._cleared = false)
    (hnj : ¬ now - lj < 0.35) : onXRFrame.hurdleBranch now lj og = og := by
  unfold onXRFrame.hurdleBranch Obstacle.checkHurdleClear
  simp only [hreq, hcl, hnj, Bool.not_true, Bool.or_self, Bool.false_eq_true, if_false]
  split_ifs with h1 h2 h3 h4 <;> first | rfl | (exfalso; simp at *; linarith) | (simp at *)

/-- One frame of an uncleared hurdle without a recent jump changes neither the
score state nor the clearance flag. -/
theorem hurdle_step_without_jump (headR : ℚ) (og : Obstacle × Game) (dt now lj : ℚ) (h : Vec3)
    (ht : og.1.type = .HURDLE) (hreq : og.1.requiresJump = true) (hcl : og.1._cleared = false)
    (hnj : ¬ now - lj < 0.35) :
    (onXRFrame.obstacleStep headR og dt now lj h).2 = og.2 ∧
    (onXRFrame.obstacleStep headR og dt now lj h).1.type = .HURDLE ∧
    (onXRFrame.obstacleStep headR og dt now lj h).1.requiresJump = true ∧
    (onXRFrame.obstacleStep headR og dt now lj h).1._cleared = false := by
  have hu : (og.1.update dt).type = .HURDLE ∧ (og.1.update dt).requiresJump = true ∧
      (og.1.update dt)._cleared = false := by
    unfold Obstacle.update; split_ifs <;> simp [ht, hreq, hcl]
  unfold onXRFrame.obstacleStep
  dsimp only
  by_cases ha : og.1.active = true
  · simp only [ha, Bool.not_true, Bool.false_eq_true, if_false]
    by_cases h6 : (og.1.update dt).position.z > 0.6
    · simp only [h6, if_true]
      exact ⟨trivial, by simpa [Obstacle.recycle] using hu⟩
    · simp only [h6, if_false, onXRFrame.resolve]
      rw [hurdleBranch_without_jump now lj (og.1.update dt, og.2) hu.2.1 hu.2.2 hnj]
      have hc : onXRFrame.collisionBranch h headR (og.1.update dt, og.2)
          = (og.1.update dt, og.2) := by
        simp [onXRFrame.collisionBranch, hu.1]
      rw [hc]
      simp only [onXRFrame.recycleStep, h6, if_false]
      exact ⟨trivial, hu⟩
  · simp only [Bool.not_eq_true] at ha
    simp only [ha, Bool.not_false, if_true]
    exact ⟨trivial, ht, hreq, hcl⟩

theorem hurdle_pass_invariant (headR : ℚ) (o : Obstacle) (game : Game) (fs : List PassFrame)
    (ht : o.type = .HURDLE) (hreq : o.requiresJump = true) (hcl : o._cleared = false)
    (hnj : ∀ f ∈ fs, ¬ f.now - f.lastJumpAt < 0.35) :
    (obstaclePass headR (o, game) fs).2 = game ∧
    (obstaclePass headR (o, game) fs).1.type = .HURDLE ∧
    (obstaclePass headR (o, game) fs).1.requiresJump = true ∧
    (obstaclePass headR (o, game) fs).1._cleared = false := by
  induction fs using List.reverseRecOn with
  | nil => exact ⟨rfl, ht, hreq, hcl⟩
  | append_singleton fs f ih =>
    obtain ⟨i1, i2, i3, i4⟩ := ih (fun g hg => hnj g (List.mem_append_left _ hg))
    rw [obstaclePass_snoc]
    obtain ⟨k1, k2, k3, k4⟩ := hurdle_step_without_jump headR (obstaclePass headR (o, game) fs)
      f.dt f.now f.lastJumpAt f.headLocal i2 i3 i4 (hnj f (by simp))
    exact ⟨k1.trans i1, k2, k3, k4⟩

/-- C5 (what the code does).  For every pass of an uncleared HURDLE, through
any frames, during which no frame's current time is within 0.35 s after
`player.lastJumpAt`, the frame loop leaves the score state as it was: no miss
is registered for the hurdle at all, also not once its `z` exceeds 0.3. -/
theorem hurdle_pass_without_jump_registers_no_miss (headR : ℚ) (o : Obstacle) (game : Game)
    (fs : List PassFrame) (ht : o.type = .HURDLE) (hreq : o.requiresJump = true)
    (hcl : o._cleared = false) (hnj : ∀ f ∈ fs, ¬ f.now - f.lastJumpAt < 0.35) :
    (obstaclePass headR (o, game) fs).2 = game ∧
    (obstaclePass headR (o, game) fs).2.misses = game.misses := by
  have h := (hurdle_pass_invariant headR o game fs ht hreq hcl hnj).1
  exact ⟨h, by rw [h]⟩

theorem hurdleFramesNoJump_eq :
    hurdleFramesNoJump
      = (List.range 164).map hurdleFrameNoJump ++ [hurdleFrameNoJump 164] := by
  unfold hurdleFramesNoJump
  rw [List.range_succ, List.map_append]
  rfl

/-- C5 (evaluation at the failing input).  A hurdle spawned at `z = -3.5` and
advanced through the 165 frames of `hurdleFramesNoJump`, in none of which a
jump lies within the last 0.35 s, ends recycled at `z = 0.625`, behind the
window's far edge 0.3, and the score state is still the initial one: `misses`
is 0, not 1. -/
theorem hurdle_pass_without_jump_registers_no_miss_witness :
    (∀ f ∈ hurdleFramesNoJump, ¬ f.now - f.lastJumpAt < 0.35) ∧
    (obstaclePass 0.18 ((Obstacle.new .HURDLE).spawn (-3.5), Game.init)
      hurdleFramesNoJump).1.active = false ∧
    (obstaclePass 0.18 ((Obstacle.new .HURDLE).spawn (-3.5), Game.init)
      hurdleFramesNoJump).1.position.z = 5 / 8 ∧
    (obstaclePass 0.18 ((Obstacle.new .HURDLE).spawn (-3.5), Game.init)
      hurdleFramesNoJump).2 = Game.init ∧
    (obstaclePass 0.18 ((Obstacle.new .HURDLE).spawn (-3.5), Game.init)
      hurdleFramesNoJump).2.misses = 0 := by
  have hnj : ∀ f ∈ hurdleFramesNoJump, ¬ f.now - f.lastJumpAt < 0.35 := by
    intro f hf
    simp only [hurdleFramesNoJump, List.mem_map, List.mem_range] at hf
    obtain ⟨k, -, rfl⟩ := hf
    have : (0 : ℚ) ≤ (k : ℚ) := Nat.cast_nonneg k
    simp only [not_lt, hurdleFrameNoJump]
    norm_num
    linarith
  have hk := obstaclePass_kinematics 0.18 ((Obstacle.new .HURDLE).spawn (-3.5)) Game.init
    ((List.range 164).map hurdleFrameNoJump)
    (by simp [Obstacle.spawn]) (by simp [Obstacle.spawn, Obstacle.new, track])
    (by intro f hf; simp only [List.mem_map] at hf; obtain ⟨k, -, rfl⟩ := hf; rfl)
    (by simp [Obstacle.spawn]; norm_num)
  obtain ⟨k1, k2, -, k4⟩ := hk
  have hs := obstacleStep_kinematics 0.18 _ (hurdleFrameNoJump 164).dt (hurdleFrameNoJump 164).now
    (hurdleFrameNoJump 164).lastJumpAt (hurdleFrameNoJump 164).headLocal k1
  rw [k2, k4] at hs
  have h := hurdle_pass_without_jump_registers_no_miss 0.18 ((Obstacle.new .HURDLE).spawn (-3.5))
    Game.init hurdleFramesNoJump (by simp [Obstacle.spawn, Obstacle.new])
    (by simp [Obstacle.spawn, Obstacle.new]) (by simp [Obstacle.spawn]) hnj
  refine ⟨hnj, ?_, ?_, h.1, by rw [h.1]; rfl⟩
  · rw [hurdleFramesNoJump_eq, obstaclePass_snoc, hs.2.2.2]
    simp [Obstacle.spawn, hurdleFrameNoJump]; norm_num
  · rw [hurdleFramesNoJump_eq, obstaclePass_snoc, hs.1]
    simp [Obstacle.spawn, hurdleFrameNoJump]; norm_num

/-! ## Pool invariant and reset -/

theorem modifyAt_getElem? (all : List Obstacle) (i j : ℕ) (f : Obstacle → Obstacle) :
    (modifyAt all i f)[j]? = if i = j then (all[j]?).map f else all[j]? := by
  unfold modifyAt
  cases h : all[i]? with
  | none =>
    by_cases hij : i = j
    · subst hij; simp [h]
    · simp [hij]
  | some o =>
    by_cases hij : i = j
    · subst hij
      have hl : i < all.length := (List.getElem?_eq_some_iff.mp h).1
      simp [h, List.getElem?_set_self hl]
    · simp [hij, List.getElem?_set_ne hij]

theorem pool_get_spec (p : Pool) (type : OBST) :
    (pool.get p type).1.active = p.active ++ [(pool.get p type).2] ∧
    ∀ j, j ≠ (pool.get p type).2 → (pool.get p type).1.all[j]? = p.all[j]? := by
  unfold pool.get
  cases h : p.all.findIdx? (fun x => !x.active && decide (x.type = type)) with
  | some i => simp
  | none =>
    refine ⟨rfl, ?_⟩
    intro j hj
    simp only at hj ⊢
    rcases Nat.lt_or_ge j p.all.length with hlt | hge
    · exact List.getElem?_append_left hlt
    · have hgt : p.all.length < j := lt_of_le_of_ne hge (Ne.symm hj)
      rw [List.getElem?_eq_none (by simp; omega), List.getElem?_eq_none (by omega)]

theorem spawn_flaggedInActive (s : State) (rnd : Rand) (h : FlaggedInActive s.pool) :
    FlaggedInActive (spawner.spawn s rnd).pool := by
  unfold spawner.spawn
  by_cases ht : s.trackRoot = true
  · simp only [ht, Bool.not_true, Bool.false_eq_true, if_false]
    generalize (if rnd.r < 0.4 then OBST.OVERHEAD_BAR
      else if rnd.r < 0.75 then (if rnd.side < 0.5 then OBST.GATE_LEFT else OBST.GATE_RIGHT)
      else OBST.HURDLE) = type
    obtain ⟨ga, gall⟩ := pool_get_spec s.pool type
    intro j o hj ho
    simp only at hj ⊢
    rw [ga]
    by_cases hji : j = (pool.get s.pool type).2
    · simp [hji]
    · have hne : (pool.get s.pool type).2 ≠ j := fun e => hji e.symm
      have : s.pool.all[j]? = some o := by
        rw [← gall j hji]
        split_ifs at hj
        · rw [modifyAt_getElem?, if_neg hne, modifyAt_getElem?, if_neg hne] at hj; exact hj
        · rw [modifyAt_getElem?, if_neg hne] at hj; exact hj
      exact List.mem_append_left _ (h j o this ho)
  · simp only [Bool.not_eq_true] at ht
    simp only [ht, Bool.not_false, if_true]
    exact h

theorem updateSlot_spec (dt : ℚ) (all : List Obstacle) (i : ℕ) :
    (∀ j, j ≠ i → (pool.updateSlot dt all i).1[j]? = all[j]?) ∧
    (∀ o', (pool.updateSlot dt all i).1[i]? = some o' →
      ∃ o, all[i]? = some o ∧ (o'.active = true → o.active = true) ∧
        (o'.active = true → (pool.updateSlot dt all i).2 = true)) := by
  unfold pool.updateSlot
  cases h : all[i]? with
  | none => simp [h]
  | some ob =>
    have hl : i < all.length := (List.getElem?_eq_some_iff.mp h).1
    have hu : (ob.update dt).active = ob.active := by
      unfold Obstacle.update; split_ifs <;> rfl
    dsimp only
    split_ifs with h6
    · refine ⟨fun j hj => List.getElem?_set_ne (Ne.symm hj), ?_⟩
      intro o' ho'
      rw [List.getElem?_set_self hl] at ho'
      cases ho'
      simp [Obstacle.recycle]
    · refine ⟨fun j hj => List.getElem?_set_ne (Ne.symm hj), ?_⟩
      intro o' ho'
      rw [List.getElem?_set_self hl] at ho'
      cases ho'
      simp [hu]

theorem updateLoop_spec (dt : ℚ) (act : List ℕ) (all : List Obstacle) :
    (∀ (j : ℕ) (o' : Obstacle), (pool.updateLoop dt act all).2[j]? = some o' →
      ∃ o : Obstacle, all[j]? = some o ∧ (o'.active = true → o.active = true)) ∧
    (∀ (j : ℕ), j ∈ act → ∀ (o' : Obstacle), (pool.updateLoop dt act all).2[j]? = some o' → o'.active = true →
      j ∈ (pool.updateLoop dt act all).1) ∧
    (∀ (j : ℕ), j ∉ act → (pool.updateLoop dt act all).2[j]? = all[j]?) := by
  induction act with
  | nil =>
    simp only [pool.updateLoop]
    exact ⟨fun j o' h => ⟨o', h, id⟩, fun j hj => absurd hj (List.not_mem_nil j), fun _ _ => trivial⟩
  | cons i rest ih =>
    obtain ⟨ih1, ih2, ih3⟩ := ih
    obtain ⟨s1, s2⟩ := updateSlot_spec dt (pool.updateLoop dt rest all).2 i
    simp only [pool.updateLoop]
    refine ⟨?_, ?_, ?_⟩
    · intro j o' hj
      by_cases hji : j = i
      · subst hji
        obtain ⟨o1, ho1, ha, -⟩ := s2 o' hj
        obtain ⟨o, ho, ha'⟩ := ih1 j o1 ho1
        exact ⟨o, ho, fun h => ha' (ha h)⟩
      · rw [s1 j hji] at hj
        exact ih1 j o' hj
    · intro j hjm o' hj ho'
      by_cases hji : j = i
      · subst hji
        obtain ⟨o1, -, -, hk⟩ := s2 o' hj
        simp [hk ho']
      · rw [s1 j hji] at hj
        have hjr : j ∈ rest := by
          rcases List.mem_cons.mp hjm with e | e
          · exact absurd e hji
          · exact e
        have := ih2 j hjr o' hj ho'
        split_ifs
        · exact List.mem_cons_of_mem _ this
        · exact this
    · intro j hjm
      have hji : j ≠ i := fun e => hjm (e ▸ List.mem_cons_self _ _)
      have hjr : j ∉ rest := fun e => hjm (List.mem_cons_of_mem _ e)
      rw [s1 j hji]
      exact ih3 j hjr

theorem update_flaggedInActive (p : Pool) (dt : ℚ) (h : FlaggedInActive p) :
    FlaggedInActive (pool.update p dt) := by
  obtain ⟨l1, l2, -⟩ := updateLoop_spec dt p.active p.all
  intro j o' hj ho'
  obtain ⟨o, ho, ha⟩ := l1 j o' hj
  exact l2 j (h j o ho (ha ho')) o' hj ho'

theorem resolve_active (now lj : ℚ) (c : Vec3) (r : ℚ) (ob : Obstacle) (game : Game) :
    ((onXRFrame.resolve now lj c r ob game).1.active = true → ob.active = true) ∧
    ((onXRFrame.resolve now lj c r ob game).1.active = true →
      (onXRFrame.resolve now lj c r ob game).2.2 = false) := by
  obtain ⟨a1, -, -, a4, -⟩ := hurdleBranch_kinematics now lj (ob, game)
  obtain ⟨b1, -, -, b4, -⟩ :=
    collisionBranch_kinematics c r (onXRFrame.hurdleBranch now lj (ob, game))
  unfold onXRFrame.resolve onXRFrame.recycleStep
  split_ifs with h6
  · simp [Obstacle.recycle]
  · simp only [b4, a4]
    exact ⟨id, fun _ => trivial⟩

theorem collide_spec (now lj : ℚ) (c : Vec3) (r : ℚ) (act : List ℕ) (all : List Obstacle)
    (game : Game) :
    (∀ (j : ℕ) (o' : Obstacle), (onXRFrame.collide now lj c r act all game).2.1[j]? = some o' →
      ∃ o : Obstacle, all[j]? = some o ∧ (o'.active = true → o.active = true)) ∧
    (∀ (j : ℕ), j ∈ act → ∀ (o' : Obstacle), (onXRFrame.collide now lj c r act all game).2.1[j]? = some o' →
      o'.active = true → j ∈ (onXRFrame.collide now lj c r act all game).1) ∧
    (∀ (j : ℕ), j ∉ act → (onXRFrame.collide now lj c r act all game).2.1[j]? = all[j]?) := by
  induction act with
  | nil =>
    simp only [onXRFrame.collide]
    exact ⟨fun j o' h => ⟨o', h, id⟩, fun j hj => absurd hj (List.not_mem_nil j), fun _ _ => trivial⟩
  | cons i rest ih =>
    obtain ⟨ih1, ih2, ih3⟩ := ih
    simp only [onXRFrame.collide]
    cases hi : (onXRFrame.collide now lj c r rest all game).2.1[i]? with
    | none =>
      simp only
      refine ⟨ih1, ?_, ?_⟩
      · intro j hjm o' hj ho'
        rcases List.mem_cons.mp hjm with e | e
        · subst e; exact List.mem_cons_self _ _
        · exact List.mem_cons_of_mem _ (ih2 j e o' hj ho')
      · intro j hjm
        exact ih3 j (fun e => hjm (List.mem_cons_of_mem _ e))
    | some ob =>
      have hl : i < (onXRFrame.collide now lj c r rest all game).2.1.length :=
        (List.getElem?_eq_some_iff.mp hi).1
      obtain ⟨ra, rk⟩ := resolve_active now lj c r ob
        (onXRFrame.collide now lj c r rest all game).2.2
      simp only
      refine ⟨?_, ?_, ?_⟩
      · intro j o' hj
        by_cases hji : j = i
        · subst hji
          rw [List.getElem?_set_self hl] at hj
          cases hj
          obtain ⟨o, ho, ha'⟩ := ih1 j ob hi
          exact ⟨o, ho, fun h => ha' (ra h)⟩
        · rw [List.getElem?_set_ne (Ne.symm hji)] at hj
          exact ih1 j o' hj
      · intro j hjm o' hj ho'
        by_cases hji : j = i
        · subst hji
          rw [List.getElem?_set_self hl] at hj
          cases hj
          simp [rk ho']
        · rw [List.getElem?_set_ne (Ne.symm hji)] at hj
          have hjr : j ∈ rest := by
            rcases List.mem_cons.mp hjm with e | e
            · exact absurd e hji
            · exact e
          have := ih2 j hjr o' hj ho'
          split_ifs
          · exact this
          · exact List.mem_cons_of_mem _ this
      · intro j hjm
        have hji : j ≠ i := fun e => hjm (e ▸ List.mem_cons_self _ _)
        have hjr : j ∉ rest := fun e => hjm (List.mem_cons_of_mem _ e)
        rw [List.getElem?_set_ne (Ne.symm hji)]
        exact ih3 j hjr

theorem collide_flaggedInActive (now lj : ℚ) (c : Vec3) (r : ℚ) (p : Pool) (game : Game)
    (h : FlaggedInActive p) :
    FlaggedInActive
      { all := (onXRFrame.collide now lj c r p.active p.all game).2.1,
        active := (onXRFrame.collide now lj c r p.active p.all game).1 } := by
  obtain ⟨l1, l2, -⟩ := collide_spec now lj c r p.active p.all game
  intro j o' hj ho'
  obtain ⟨o, ho, ha⟩ := l1 j o' hj
  exact l2 j (h j o ho (ha ho')) o' hj ho'

theorem clear_getElem?_of_not_mem (act : List ℕ) (all : List Obstacle) (j : ℕ) (hj : j ∉ act) :
    (act.foldl (fun all i => modifyAt all i Obstacle.recycle) all)[j]? = all[j]? := by
  induction act generalizing all with
  | nil => rfl
  | cons i rest ih =>
    have hji : i ≠ j := fun e => hj (e ▸ List.mem_cons_self _ _)
    have hjr : j ∉ rest := fun e => hj (List.mem_cons_of_mem _ e)
    rw [List.foldl_cons, ih _ hjr, modifyAt_getElem?, if_neg hji]

theorem clear_inactive_of_mem (act : List ℕ) (all : List Obstacle) (j : ℕ) (hj : j ∈ act)
    (o : Obstacle)
    (ho : (act.foldl (fun all i => modifyAt all i Obstacle.recycle) all)[j]? = some o) :
    o.active = false := by
  induction act generalizing all with
  | nil => exact absurd hj (List.not_mem_nil j)
  | cons i rest ih =>
    rw [List.foldl_cons] at ho
    by_cases hjr : j ∈ rest
    · exact ih _ hjr ho
    · have hji : i = j := by
        rcases List.mem_cons.mp hj with e | e
        · exact e.symm
        · exact absurd e hjr
      rw [clear_getElem?_of_not_mem rest _ j hjr, modifyAt_getElem?, if_pos hji] at ho
      cases h : all[j]? with
      | none => rw [h] at ho; cases ho
      | some o0 => rw [h] at ho; cases ho; rfl

/-- After `pool.clear()` no obstacle of `pool.all` is flagged active, provided
that before it every flagged obstacle was referenced from `pool.active`. -/
theorem clear_all_inactive (p : Pool) (h : FlaggedInActive p) :
    (pool.clear p).active = [] ∧ ∀ o ∈ (pool.clear p).all, o.active = false := by
  refine ⟨rfl, ?_⟩
  intro o ho
  obtain ⟨j, hj⟩ := List.mem_iff_getElem?.mp ho
  by_cases hm : j ∈ p.active
  · exact clear_inactive_of_mem p.active p.all j hm o hj
  · have hj' : p.all[j]? = some o := by
      rw [← clear_getElem?_of_not_mem p.active p.all j hm]; exact hj
    cases ha : o.active with
    | false => rfl
    | true => exact absurd (h j o hj' ha) hm

theorem clear_flaggedInActive (p : Pool) (h : FlaggedInActive p) :
    FlaggedInActive (pool.clear p) := by
  intro j o hj ho
  have := (clear_all_inactive p h).2 o (List.mem_iff_getElem?.mpr ⟨j, hj⟩)
  rw [this] at ho
  cases ho

theorem spawner_update_flaggedInActive (s : State) (dt : ℚ) (rnd : Rand)
    (h : FlaggedInActive s.pool) : FlaggedInActive (spawner.update s dt rnd).pool := by
  unfold spawner.update
  dsimp only
  split_ifs
  · exact spawn_flaggedInActive _ rnd h
  · exact h

theorem gameUpdate_flaggedInActive (s : State) (now : ℚ) (f : FrameInput)
    (h : FlaggedInActive s.pool) : FlaggedInActive (onXRFrame.gameUpdate s now f).pool := by
  unfold onXRFrame.gameUpdate
  split_ifs
  · dsimp only
    exact collide_flaggedInActive _ _ _ _ _ _
      (update_flaggedInActive _ _ (spawner_update_flaggedInActive s _ f.rnd h))
  · exact h

theorem onXRFrame_flaggedInActive (s : State) (f : FrameInput) (h : FlaggedInActive s.pool) :
    FlaggedInActive (onXRFrame s f).pool := by
  unfold onXRFrame
  cases f.pose with
  | none => exact h
  | some head => exact gameUpdate_flaggedInActive _ _ f h

theorem apply_flaggedInActive (s : State) (op : Op) (h : FlaggedInActive s.pool) :
    FlaggedInActive (Op.apply s op).pool := by
  cases op with
  | addScore pts => exact h
  | addMiss => exact h
  | spawn rnd => exact spawn_flaggedInActive s rnd h
  | spawnerUpdate dt rnd => exact spawner_update_flaggedInActive s dt rnd h
  | poolUpdate dt => exact update_flaggedInActive s.pool dt h
  | poolClear => exact clear_flaggedInActive s.pool h
  | frame f => exact onXRFrame_flaggedInActive s f h
  | select =>
    simp only [Op.apply, onSelectPlace]
    split_ifs
    · exact h
    · exact clear_flaggedInActive s.pool h
  | placeClick => exact h
  | recenterClick => exact h
  | resetClick => exact clear_flaggedInActive s.pool h
  | startClick =>
    simp only [Op.apply, btnStart_click]
    split_ifs <;> exact h
  | sessionEnd => exact h

theorem run_flaggedInActive (s : State) (ops : List Op) (h : FlaggedInActive s.pool) :
    FlaggedInActive (run s ops).pool := by
  induction ops generalizing s with
  | nil => exact h
  | cons op rest ih => exact ih (Op.apply s op) (apply_flaggedInActive s op h)

theorem init_flaggedInActive : FlaggedInActive State.init.pool := by
  intro i o hi
  simp [State.init] at hi

/-- C8.  After any sequence of operations from the initial state (scoring,
misses, spawns, advancing the pool, whole frames, placements, button clicks),
the handler of the reset button yields `score = 0`, `combo = 0`, `misses = 0`
and an empty `pool.active`, and every obstacle of `pool.all` is inactive. -/
theorem reset_zeroes_stats_and_empties_pool (ops : List Op) :
    (btnReset_click (run State.init ops)).game.score = 0 ∧
    (btnReset_click (run State.init ops)).game.combo = 0 ∧
    (btnReset_click (run State.init ops)).game.misses = 0 ∧
    (btnReset_click (run State.init ops)).pool.active = [] ∧
    (∀ o ∈ (btnReset_click (run State.init ops)).pool.all, o.active = false) ∧
    (btnReset_click (run State.init ops)).spawner.t = 0 ∧
    (btnReset_click (run State.init ops)).spawner.nextIn = 1.1 := by
  have h := clear_all_inactive (run State.init ops).pool
    (run_flaggedInActive State.init ops init_flaggedInActive)
  exact ⟨rfl, rfl, rfl, h.1, h.2, rfl, rfl⟩

/-- The run `spawnRun` reaches a state with an obstacle in play and non-zero
counters, and the reset handler clears both. -/
theorem spawnRun_then_reset :
    (run State.init spawnRun).trackRoot = true ∧
    (run State.init spawnRun).pool.active = [0] ∧
    (run State.init spawnRun).pool.all.map (fun o => (o.type, o.active)) = [(.OVERHEAD_BAR, true)] ∧
    (run State.init spawnRun).game.score = 1 ∧ (run State.init spawnRun).game.misses = 1 ∧
    (btnReset_click (run State.init spawnRun)).pool.active = [] ∧
    (btnReset_click (run State.init spawnRun)).pool.all.map (fun o => (o.type, o.active))
      = [(.OVERHEAD_BAR, false)] ∧
    (btnReset_click (run State.init spawnRun)).game.score = 0 ∧
    (btnReset_click (run State.init spawnRun)).game.misses = 0 := by
  decide!

/-! ## Player estimator -/

theorem spawner_spawn_player (s : State) (rnd : Rand) :
    (spawner.spawn s rnd).player = s.player := by
  unfold spawner.spawn
  split_ifs <;> rfl

theorem spawner_update_player (s : State) (dt : ℚ) (rnd : Rand) :
    (spawner.update s dt rnd).player = s.player := by
  unfold spawner.update
  dsimp only
  split_ifs
  · rw [spawner_spawn_player]
  · rfl

theorem gameUpdate_player (s : State) (now : ℚ) (f : FrameInput) :
    (onXRFrame.gameUpdate s now f).player = s.player := by
  unfold onXRFrame.gameUpdate
  split_ifs
  · dsimp only; rw [spawner_update_player]
  · rfl

theorem spawner_spawn_trackRoot (s : State) (rnd : Rand) :
    (spawner.spawn s rnd).trackRoot = s.trackRoot := by
  unfold spawner.spawn
  split_ifs <;> rfl

theorem spawner_update_trackRoot (s : State) (dt : ℚ) (rnd : Rand) :
    (spawner.update s dt rnd).trackRoot = s.trackRoot := by
  unfold spawner.update
  dsimp only
  split_ifs
  · rw [spawner_spawn_trackRoot]
  · rfl

/-- The player after a frame with a pose is the result of the estimator blocks
followed by the gesture block. -/
theorem onXRFrame_player (s : State) (f : FrameInput) (head : Vec3) (hp : f.pose = some head) :
    (onXRFrame s f).player
      = onXRFrame.gestures
          (onXRFrame.estimate s.trackRoot s.player (f.t * 0.001) head.y f.headLocal.x)
          (f.t * 0.001) := by
  unfold onXRFrame
  rw [hp]
  dsimp only
  rw [gameUpdate_player]
  rfl

theorem onXRFrame_no_pose (s : State) (f : FrameInput) (hp : f.pose = none) :
    onXRFrame s f = s := by
  unfold onXRFrame
  rw [hp]

/-- The gesture block assigns `lastJumpAt` and `_lastJump` exactly when
`jumpFires` holds. -/
theorem gestures_spec (p : Player) (now : ℚ) :
    (onXRFrame.gestures p now).baselineY = p.baselineY ∧
    (onXRFrame.gestures p now)._acc = p._acc ∧
    (onXRFrame.gestures p now).smoothVy = p.smoothVy ∧
    (onXRFrame.gestures p now)._lastJump
      = (if onXRFrame.jumpFires p now then some now else p._lastJump) ∧
    (onXRFrame.gestures p now).lastJumpAt
      = (if onXRFrame.jumpFires p now then now else p.lastJumpAt) := by
  unfold onXRFrame.gestures
  cases hb : p.baselineY with
  | none => simp [onXRFrame.jumpFires, hb]
  | some b =>
    cases hy : p.smoothY with
    | none => simp [onXRFrame.jumpFires, hb, hy]
    | some y =>
      dsimp only
      split_ifs <;> simp_all

theorem metrics_spec (p : Player) (now y : ℚ) :
    (onXRFrame.metrics p now y).baselineY = p.baselineY ∧
    (onXRFrame.metrics p now y)._acc = p._acc ∧
    (onXRFrame.metrics p now y)._lastJump = p._lastJump ∧
    (onXRFrame.metrics p now y).lastJumpAt = p.lastJumpAt := by
  unfold onXRFrame.metrics
  cases p.lastT <;> simp

theorem calibrate_spec (p : Player) (now y : ℚ) :
    (onXRFrame.calibrate p now y)._lastJump = p._lastJump ∧
    (onXRFrame.calibrate p now y).lastJumpAt = p.lastJumpAt ∧
    ((onXRFrame.calibrate p now y).baselineY.isSome = true →
      p.baselineY.isSome = true ∨ ∃ a, p._acc = some a ∧ now - a.t0 > 2) ∧
    (∀ a', (onXRFrame.calibrate p now y)._acc = some a' →
      a'.t0 = now ∨ ∃ a, p._acc = some a ∧ a'.t0 = a.t0) := by
  unfold onXRFrame.calibrate
  cases hb : p.baselineY with
  | some b =>
    simp only [hb]
    exact ⟨trivial, trivial, fun _ => Or.inl rfl, fun a' h => Or.inr ⟨a', h, rfl⟩⟩
  | none =>
    cases ha : p._acc with
    | none =>
      dsimp only
      split_ifs with h
      · exfalso; norm_num at h
      · simp
    | some a =>
      dsimp only
      split_ifs with h
      · have h1 := h.1
        norm_num at h1
        simp [h1]
      · simp

theorem estimate_spec (tr : Bool) (p : Player) (now y x : ℚ) :
    (onXRFrame.estimate tr p now y x)._lastJump = p._lastJump ∧
    (onXRFrame.estimate tr p now y x).lastJumpAt = p.lastJumpAt ∧
    ((onXRFrame.estimate tr p now y x).baselineY.isSome = true →
      p.baselineY.isSome = true ∨ ∃ a, p._acc = some a ∧ now - a.t0 > 2) ∧
    (∀ a', (onXRFrame.estimate tr p now y x)._acc = some a' →
      a'.t0 = now ∨ ∃ a, p._acc = some a ∧ a'.t0 = a.t0) := by
  obtain ⟨m1, m2, m3, m4⟩ := metrics_spec p now y
  obtain ⟨c1, c2, c3, c4⟩ := calibrate_spec (onXRFrame.metrics p now y) now y
  unfold onXRFrame.estimate
  dsimp only
  rw [m1, m2] at c3
  rw [m2] at c4
  exact ⟨c1.trans m3, c2.trans m4, c3, c4⟩

theorem jumpFires_guard (p : Player) (now : ℚ) (h : onXRFrame.jumpFires p now = true) :
    p.baselineY.isSome = true ∧ ∀ lj, p._lastJump = some lj → lj = 0 ∨ now - lj > 0.35 := by
  unfold onXRFrame.jumpFires at h
  cases hb : p.baselineY with
  | none => simp [hb] at h
  | some b =>
    cases hy : p.smoothY with
    | none => simp [hb, hy] at h
    | some y =>
      refine ⟨rfl, ?_⟩
      intro lj hlj
      simp only [hb, hy, hlj, Bool.and_eq_true, Bool.or_eq_true, decide_eq_true_eq] at h
      exact h.2

/-- Operations other than frames leave the jump debounce and the calibration
accumulator alone and never set a baseline. -/
theorem apply_player_of_not_frame (s : State) (op : Op) (hop : ∀ f, op ≠ .frame f) :
    (Op.apply s op).player._lastJump = s.player._lastJump ∧
    (Op.apply s op).player._acc = s.player._acc ∧
    ((Op.apply s op).player.baselineY.isSome = true → s.player.baselineY.isSome = true) := by
  cases op with
  | frame f => exact absurd rfl (hop f)
  | spawn rnd => simp only [Op.apply, spawner_spawn_player]; exact ⟨trivial, trivial, id⟩
  | spawnerUpdate dt rnd =>
    simp only [Op.apply, spawner_update_player]; exact ⟨trivial, trivial, id⟩
  | select =>
    simp only [Op.apply, onSelectPlace]
    split_ifs
    · exact ⟨rfl, rfl, id⟩
    · simp [placeTrackAtReticle]
  | startClick =>
    simp only [Op.apply, btnStart_click]
    split_ifs <;> exact ⟨rfl, rfl, id⟩
  | _ => exact ⟨rfl, rfl, id⟩

theorem jumpTimes_gap (ops : List Op) :
    ∀ (s : State) (T : ℚ), 0 ≤ T → (s.player.baselineY.isSome = true → 0 < T) →
      (∀ a, s.player._acc = some a → 0 ≤ a.t0) →
      (∀ t ∈ frameTimes ops, T ≤ t * 0.001) → (frameTimes ops).Pairwise (· ≤ ·) →
      (jumpTimes s ops).Pairwise (fun a b => b - a > 0.35) ∧
      ∀ t ∈ jumpTimes s ops, ∀ lj, s.player._lastJump = some lj → lj ≠ 0 → t - lj > 0.35 := by
  induction ops with
  | nil => intro s T _ _ _ _ _; simp [jumpTimes]
  | cons op rest ih =>
    intro s T hT hb ha hft hsorted
    by_cases hop : ∃ f, op = .frame f
    · obtain ⟨f, rfl⟩ := hop
      simp only [frameTimes, List.mem_cons, forall_eq_or_imp, List.pairwise_cons] at hft hsorted
      obtain ⟨hnow, hrest⟩ := hft
      obtain ⟨hle, hsorted'⟩ := hsorted
      have hrest' : ∀ t ∈ frameTimes rest, f.t * 0.001 ≤ t * 0.001 := by
        intro t ht
        have := hle t ht
        linarith
      have hnow0 : 0 ≤ f.t * 0.001 := le_trans hT hnow
      simp only [jumpTimes]
      cases hp : f.pose with
      | none =>
        rw [onXRFrame_no_pose s f hp]
        simp only [jumpFiresInFrame, hp, Bool.false_eq_true, if_false, List.nil_append]
        exact ih s (f.t * 0.001) hnow0 (fun h => lt_of_lt_of_le (hb h) hnow) ha hrest' hsorted'
      | some head =>
        obtain ⟨e1, -, e3, e4⟩ :=
          estimate_spec s.trackRoot s.player (f.t * 0.001) head.y f.headLocal.x
        obtain ⟨g1, g2, -, g4, -⟩ := gestures_spec
          (onXRFrame.estimate s.trackRoot s.player (f.t * 0.001) head.y f.headLocal.x)
          (f.t * 0.001)
        have hb' : (onXRFrame s f).player.baselineY.isSome = true → 0 < f.t * 0.001 := by
          rw [onXRFrame_player s f head hp, g1]
          intro h
          rcases e3 h with h' | ⟨a, ha1, ha2⟩
          · exact lt_of_lt_of_le (hb h') hnow
          · have := ha a ha1
            linarith
        have ha' : ∀ a, (onXRFrame s f).player._acc = some a → 0 ≤ a.t0 := by
          rw [onXRFrame_player s f head hp, g2]
          intro a' h
          rcases e4 a' h with h' | ⟨a, ha1, ha2⟩
          · rw [h']; exact hnow0
          · rw [ha2]; exact ha a ha1
        obtain ⟨ih1, ih2⟩ := ih (onXRFrame s f) (f.t * 0.001) hnow0 hb' ha' hrest' hsorted'
        have hlj' : (onXRFrame s f).player._lastJump
            = if jumpFiresInFrame s f then some (f.t * 0.001) else s.player._lastJump := by
          rw [onXRFrame_player s f head hp, g4, e1]
          simp only [jumpFiresInFrame, hp]
        by_cases hfire : jumpFiresInFrame s f = true
        · rw [hfire] at hlj'
          simp only [if_true] at hlj'
          have hfire' := hfire
          simp only [jumpFiresInFrame, hp] at hfire'
          obtain ⟨j1, j2⟩ := jumpFires_guard _ _ hfire'
          have hpos : 0 < f.t * 0.001 := by
            rcases e3 j1 with h' | ⟨a, ha1, ha2⟩
            · exact lt_of_lt_of_le (hb h') hnow
            · have := ha a ha1
              linarith
          have hgap : ∀ t ∈ jumpTimes (onXRFrame s f) rest, t - f.t * 0.001 > 0.35 :=
            fun t ht => ih2 t ht (f.t * 0.001) hlj' (ne_of_gt hpos)
          simp only [hfire, if_true, List.singleton_append, List.pairwise_cons, List.mem_cons,
            forall_eq_or_imp]
          refine ⟨⟨hgap, ih1⟩, ?_, ?_⟩
          · intro lj hlj hne
            rw [e1] at j2
            rcases j2 lj hlj with h0 | hg
            · exact absurd h0 hne
            · exact hg
          · intro t ht lj hlj hne
            rw [e1] at j2
            have h1 := hgap t ht
            rcases j2 lj hlj with h0 | hg
            · exact absurd h0 hne
            · norm_num at h1 hg ⊢
              linarith
        · simp only [Bool.not_eq_true] at hfire
          rw [hfire] at hlj'
          simp only [Bool.false_eq_true, if_false] at hlj'
          simp only [hfire, Bool.false_eq_true, if_false, List.nil_append]
          refine ⟨ih1, ?_⟩
          intro t ht lj hlj hne
          exact ih2 t ht lj (hlj'.trans hlj) hne
    · have hop' : ∀ f, op ≠ .frame f := fun f e => hop ⟨f, e⟩
      obtain ⟨a1, a2, a3⟩ := apply_player_of_not_frame s op hop'
      have hj : jumpTimes s (op :: rest) = jumpTimes (Op.apply s op) rest := by
        cases op <;> first | rfl | exact absurd rfl (hop' _)
      have hf : frameTimes (op :: rest) = frameTimes rest := by
        cases op <;> first | rfl | exact absurd rfl (hop' _)
      rw [hj]
      rw [hf] at hft hsorted
      obtain ⟨ih1, ih2⟩ := ih (Op.apply s op) T hT (fun h => hb (a3 h))
        (fun a h => ha a (a2 ▸ h)) hft hsorted
      exact ⟨ih1, fun t ht lj hlj hne => ih2 t ht lj (a1.trans hlj) hne⟩

/-- C9.  In every run from the initial state (frames interleaved with any
other operations) whose frame timestamps are non-negative and monotonic, any
two frames at which a jump event fires (`lastJumpAt` is assigned) have times
more than 0.35 s apart, whatever the head heights are. -/
theorem jump_events_more_than_debounce_apart (ops : List Op)
    (hmono : (frameTimes ops).Pairwise (· ≤ ·)) (hnonneg : ∀ t ∈ frameTimes ops, 0 ≤ t) :
    (jumpTimes State.init ops).Pairwise (fun a b => b - a > 0.35) :=
  (jumpTimes_gap ops State.init 0 (le_refl 0) (by simp [State.init, Player.init])
    (by simp [State.init, Player.init])
    (fun t ht => by have := hnonneg t ht; linarith) hmono).1

/-- A frame fires a jump event exactly when it assigns `player.lastJumpAt`. -/
theorem onXRFrame_lastJumpAt (s : State) (f : FrameInput) :
    (onXRFrame s f).player.lastJumpAt
      = if jumpFiresInFrame s f then f.t * 0.001 else s.player.lastJumpAt := by
  cases hp : f.pose with
  | none => rw [onXRFrame_no_pose s f hp]; simp [jumpFiresInFrame, hp]
  | some head =>
    obtain ⟨-, e2, -, -⟩ := estimate_spec s.trackRoot s.player (f.t * 0.001) head.y f.headLocal.x
    obtain ⟨-, -, -, -, g5⟩ := gestures_spec
      (onXRFrame.estimate s.trackRoot s.player (f.t * 0.001) head.y f.headLocal.x) (f.t * 0.001)
    rw [onXRFrame_player s f head hp, g5, e2]
    simp only [jumpFiresInFrame, hp]

theorem metrics_atRest (c : ℚ) (p : Player) (now : ℚ) (h : AtRest c p) :
    AtRest c (onXRFrame.metrics p now c) := by
  obtain ⟨h1, h2, h3, h4, h5, h6, h7, h8⟩ := h
  unfold onXRFrame.metrics
  cases ht : p.lastT with
  | none => exact ⟨h1, h2, h3, h4, fun _ _ => rfl, h6, h7, h8⟩
  | some t =>
    have hy : p.lastY = some c := h5 t ht
    refine ⟨?_, h2, h3, h4, fun _ _ => rfl, ?_, h7, h8⟩
    · simp [hy, h1, lowpass, lerp]
    · intro y hy'
      simp only [Option.some.injEq] at hy'
      rw [← hy']
      cases hs : p.smoothY with
      | none => simp [lowpass]
      | some y0 =>
        rw [h6 y0 hs]
        simp only [lowpass, lerp]
        ring

theorem calibrate_atRest (c : ℚ) (p : Player) (now : ℚ) (h : AtRest c p) :
    AtRest c (onXRFrame.calibrate p now c) := by
  obtain ⟨h1, h2, h3, h4, h5, h6, h7, h8⟩ := h
  unfold onXRFrame.calibrate
  cases hb : p.baselineY with
  | some b => exact ⟨h1, h2, h3, h4, h5, h6, h7, h8⟩
  | none =>
    cases ha : p._acc with
    | none =>
      dsimp only
      split_ifs with hh
      · exfalso; norm_num at hh
      · refine ⟨h1, h2, h3, h4, h5, h6, ?_, ?_⟩
        · intro b hb'; cases hb'
        · intro a ha'
          simp only [Option.some.injEq] at ha'
          rw [← ha']
          simp
    | some a =>
      have hsum := h8 a ha
      dsimp only
      split_ifs with hh
      · refine ⟨h1, h2, h3, h4, h5, h6, ?_, ?_⟩
        · intro b hb'
          simp only [Option.some.injEq] at hb'
          rw [← hb', hsum]
          have : ((a.n + 1 : ℕ) : ℚ) ≠ 0 := Nat.cast_ne_zero.mpr (Nat.succ_ne_zero _)
          field_simp
          ring
        · intro a' ha'; cases ha'
      · refine ⟨h1, h2, h3, h4, h5, h6, ?_, ?_⟩
        · intro b hb'; cases hb'
        · intro a' ha'
          simp only [Option.some.injEq] at ha'
          rw [← ha']
          simp only
          rw [hsum]
          push_cast
          ring

theorem estimate_atRest (c : ℚ) (tr : Bool) (p : Player) (now x : ℚ) (h : AtRest c p) :
    AtRest c (onXRFrame.estimate tr p now c x) := by
  have := calibrate_atRest c _ now (metrics_atRest c p now h)
  unfold onXRFrame.estimate
  exact this

theorem jumpFires_atRest (c : ℚ) (p : Player) (now : ℚ) (h : AtRest c p) :
    onXRFrame.jumpFires p now = false := by
  obtain ⟨h1, -, -, h4, -, -, -, -⟩ := h
  unfold onXRFrame.jumpFires
  cases p.baselineY with
  | none => rfl
  | some b =>
    cases p.smoothY with
    | none => rfl
    | some y =>
      simp only [h1, h4]
      norm_num

theorem gestures_atRest (c : ℚ) (p : Player) (now : ℚ) (h : AtRest c p) :
    AtRest c (onXRFrame.gestures p now) := by
  have hj := jumpFires_atRest c p now h
  obtain ⟨h1, h2, h3, h4, h5, h6, h7, h8⟩ := h
  unfold onXRFrame.gestures
  cases hb : p.baselineY with
  | none => exact ⟨h1, h2, h3, h4, h5, h6, fun b hb' => h7 b (hb ▸ hb'), h8⟩
  | some b =>
    cases hy : p.smoothY with
    | none => exact ⟨h1, h2, h3, h4, h5, fun y hy' => h6 y (hy ▸ hy'), h7, h8⟩
    | some y =>
      have hb0 : b = c := h7 b hb
      have hy0 : y = c := h6 y hy
      have hd : ¬ (y - b < -p.DUCK_DELTA) := by
        rw [hb0, hy0, h3]; norm_num
      simp only [hj, hd, if_false, Bool.false_eq_true]
      exact ⟨h1, rfl, h3, h4, h5, fun y' hy' => h6 y' (hy ▸ hy'), fun b' hb' => h7 b' (hb ▸ hb'),
        h8⟩

theorem frame_atRest (c : ℚ) (s : State) (f : FrameInput) (h : AtRest c s.player)
    (hc : ∀ head, f.pose = some head → head.y = c) :
    AtRest c (onXRFrame s f).player ∧ jumpFiresInFrame s f = false ∧
    (onXRFrame s f).player.lastJumpAt = s.player.lastJumpAt := by
  have hl := onXRFrame_lastJumpAt s f
  cases hp : f.pose with
  | none =>
    have hf : jumpFiresInFrame s f = false := by simp [jumpFiresInFrame, hp]
    rw [hf] at hl
    rw [onXRFrame_no_pose s f hp] at hl ⊢
    exact ⟨h, hf, rfl⟩
  | some head =>
    have hy := hc head hp
    have he := estimate_atRest c s.trackRoot s.player (f.t * 0.001) f.headLocal.x h
    have hf : jumpFiresInFrame s f = false := by
      simp only [jumpFiresInFrame, hp, hy]
      exact jumpFires_atRest c _ _ he
    rw [hf] at hl
    refine ⟨?_, hf, hl⟩
    rw [onXRFrame_player s f head hp, hy]
    exact gestures_atRest c _ _ he

theorem frames_atRest (c : ℚ) (fs : List FrameInput) :
    ∀ (s : State), AtRest c s.player → (∀ f ∈ fs, ∀ head, f.pose = some head → head.y = c) →
      AtRest c (run s (fs.map Op.frame)).player ∧
      (run s (fs.map Op.frame)).player.lastJumpAt = s.player.lastJumpAt ∧
      jumpTimes s (fs.map Op.frame) = [] := by
  induction fs with
  | nil => intro s h _; exact ⟨h, rfl, rfl⟩
  | cons f rest ih =>
    intro s h hc
    obtain ⟨a1, a2, a3⟩ := frame_atRest c s f h (hc f (List.mem_cons_self _ _))
    obtain ⟨i1, i2, i3⟩ := ih (onXRFrame s f) a1 (fun g hg => hc g (List.mem_cons_of_mem _ hg))
    simp only [List.map_cons, run, List.foldl_cons, Op.apply, jumpTimes, a2, Bool.false_eq_true,
      if_false, List.nil_append]
    exact ⟨i1, i2.trans a3, i3⟩

theorem init_atRest (c : ℚ) : AtRest c Player.init := by
  simp [AtRest, Player.init]

/-- Constant head height from the initial player.  From any state whose player
is `Player.init`, the player at module load, for every sequence of frames in
which the head height is the same constant `c` in every frame that has a pose
(the timestamps are arbitrary), after every number `k` of frames the smoothed
vertical velocity is 0, the duck state is off and `lastJumpAt` still has its
initial value, and no frame of the sequence fires a jump event.  The player
that a placement leaves can differ from `Player.init` in the accumulator and
is not covered. -/
theorem constant_head_height_no_gesture (s : State) (c : ℚ) (fs : List FrameInput)
    (hs : s.player = Player.init)
    (hc : ∀ f ∈ fs, ∀ head, f.pose = some head → head.y = c) :
    (∀ k, (run s ((fs.take k).map Op.frame)).player.smoothVy = 0 ∧
      (run s ((fs.take k).map Op.frame)).player._duckOn = false ∧
      (run s ((fs.take k).map Op.frame)).player.lastJumpAt = Player.init.lastJumpAt) ∧
    jumpTimes s (fs.map Op.frame) = [] := by
  have h0 : AtRest c s.player := by rw [hs]; exact init_atRest c
  refine ⟨?_, (frames_atRest c fs s h0 hc).2.2⟩
  intro k
  obtain ⟨a1, a2, -⟩ := frames_atRest c (fs.take k) s h0
    (fun f hf => hc f (List.mem_of_mem_take hf))
  rw [hs] at a2
  exact ⟨a1.1, a1.2.1, a2⟩

/-- Witness of `constant_head_height_no_gesture`: the 22 calibration frames of
`restFrames`, with the head at 1.6 m; the baseline is set by the last of them,
so the gesture block is live. -/
theorem constant_head_height_no_gesture_witness :
    (∀ k, (run State.init ((restFrames.take k).map Op.frame)).player.smoothVy = 0 ∧
      (run State.init ((restFrames.take k).map Op.frame)).player._duckOn = false ∧
      (run State.init ((restFrames.take k).map Op.frame)).player.lastJumpAt
        = Player.init.lastJumpAt) ∧
    jumpTimes State.init (restFrames.map Op.frame) = [] ∧
    (run State.init (restFrames.map Op.frame)).player.baselineY = some 1.6 :=
  ⟨(constant_head_height_no_gesture State.init 1.6 restFrames rfl (by decide!)).1,
    (constant_head_height_no_gesture State.init 1.6 restFrames rfl (by decide!)).2, by decide!⟩

/-- Witness of `jump_events_more_than_debounce_apart`: in the run `jumpRun`
the jump event fires at 2.3 s and at 2.7 s. -/
theorem jump_events_more_than_debounce_apart_witness :
    (frameTimes jumpRun).Pairwise (· ≤ ·) ∧ (∀ t ∈ frameTimes jumpRun, 0 ≤ t) ∧
    jumpTimes State.init jumpRun = [2.3, 2.7] ∧
    (jumpTimes State.init jumpRun).Pairwise (fun a b => b - a > 0.35) :=
  ⟨by decide!, by decide!, by decide!,
    jump_events_more_than_debounce_apart jumpRun (by decide!) (by decide!)⟩

/-! ## The frame loop on a single obstacle -/

/-- The frame loop on a pool that holds one active obstacle, in a frame in
which the spawner does not fire, is `onXRFrame.obstacleStep` on that obstacle:
the pass of a single obstacle is what `onXRFrame` computes. -/
theorem gameUpdate_single_obstacle (s : State) (now : ℚ) (f : FrameInput) (ob : Obstacle)
    (htr : s.trackRoot = true) (hall : s.pool.all = [ob]) (hact : s.pool.active = [0])
    (ha : ob.active = true)
    (hquiet : ¬ (s.spawner.t + onXRFrame.dt f ≥ s.spawner.nextIn)) :
    (onXRFrame.gameUpdate s now f).pool.all
      = [(onXRFrame.obstacleStep s.player.headRadius (ob, s.game) (onXRFrame.dt f) now
          s.player.lastJumpAt f.headLocal).1] ∧
    (onXRFrame.gameUpdate s now f).game
      = (onXRFrame.obstacleStep s.player.headRadius (ob, s.game) (onXRFrame.dt f) now
          s.player.lastJumpAt f.headLocal).2 ∧
    (onXRFrame.gameUpdate s now f).pool.active
      = (if (onXRFrame.obstacleStep s.player.headRadius (ob, s.game) (onXRFrame.dt f) now
          s.player.lastJumpAt f.headLocal).1.active then [0] else []) := by
  have hs1 : spawner.update s (onXRFrame.dt f) f.rnd
      = { s with spawner := { s.spawner with t := s.spawner.t + onXRFrame.dt f } } := by
    unfold spawner.update
    simp only [hquiet, if_false]
  obtain ⟨k1, -, -, k4⟩ := resolve_kinematics now s.player.lastJumpAt f.headLocal
    s.player.headRadius (ob.update (onXRFrame.dt f)) s.game
  have hflag : (onXRFrame.resolve now s.player.lastJumpAt f.headLocal s.player.headRadius
      (ob.update (onXRFrame.dt f)) s.game).2.2
        = decide ((ob.update (onXRFrame.dt f)).position.z > 0.6) := by
    obtain ⟨a1, -⟩ := hurdleBranch_kinematics now s.player.lastJumpAt
      (ob.update (onXRFrame.dt f), s.game)
    obtain ⟨b1, -⟩ := collisionBranch_kinematics f.headLocal s.player.headRadius
      (onXRFrame.hurdleBranch now s.player.lastJumpAt (ob.update (onXRFrame.dt f), s.game))
    unfold onXRFrame.resolve onXRFrame.recycleStep
    rw [b1, a1]
    split_ifs with h <;> simp [h]
  have hua : (ob.update (onXRFrame.dt f)).active = true := (update_kinematics ob _ ha).2.2.2
  unfold onXRFrame.gameUpdate onXRFrame.obstacleStep
  simp only [htr, if_true, hs1, pool.update, hall, hact, pool.updateLoop, pool.updateSlot, ha,
    Bool.not_true, Bool.false_eq_true, if_false, List.getElem?_cons_zero, List.set_cons_zero]
  by_cases h6 : (ob.update (onXRFrame.dt f)).position.z > 0.6
  · simp [h6, onXRFrame.collide, Obstacle.recycle]
  · simp only [h6, if_false, onXRFrame.collide, List.getElem?_cons_zero, List.set_cons_zero,
      hflag, decide_False, Bool.false_eq_true, k4, hua, if_true]
    exact ⟨trivial, trivial, trivial⟩

/-! ## Respawn, gates, spawn interval -/

/-- C13 (evaluation at the failing input).  For every obstacle and every
`zStart`, `spawn(zStart)` leaves it active at `(0, 0, zStart)` with `_cleared`
false, but `_scored` is left as it was.  The bar `barRecycled`, scored and
recycled on its first pass, is therefore still flagged scored after
`spawn(-3.5)`, and its second clean pass through the same frames awards
nothing, while the first pass awarded one point. -/
theorem spawn_keeps_scored_flag :
    (∀ (o : Obstacle) (zStart : ℚ), (o.spawn zStart).active = true ∧
      (o.spawn zStart).position = ⟨0, 0, zStart⟩ ∧ (o.spawn zStart)._cleared = false ∧
      (o.spawn zStart)._scored = o._scored) ∧
    barRecycled.active = false ∧ barRecycled._scored = true ∧
    (barRecycled.spawn (-3.5))._scored = true ∧
    (obstaclePass 0.18 ((Obstacle.new .OVERHEAD_BAR).spawn (-3.5), Game.init) cleanPassFrames).2
      = addScore Game.init 1 ∧
    (obstaclePass 0.18 (barRecycled.spawn (-3.5), Game.init) cleanPassFrames).2 = Game.init := by
  refine ⟨fun o z => ⟨rfl, rfl, rfl, rfl⟩, ?_⟩
  decide!

/-- C16 (evaluation at the failing input).  The collision box of a GATE_LEFT
at depth `z` spans `x` from 0.306 to 0.9 and `y` from -1 to 1.  For every depth
`z` and head height `y`, a head of radius 0.18 at the gate's depth does not
overlap it on the left lane (`x = -0.6`) and does not overlap it on the centre
lane (`x = 0`) either; on the right lane (`x = 0.6`) it overlaps it when `y`
is inside the vertical extent.  GATE_RIGHT is the mirror image: only the left
lane is blocked. -/
theorem gate_blocks_one_lane_only (z y : ℚ) (hy : -1 ≤ y ∧ y ≤ 1) :
    ((Obstacle.new .GATE_LEFT).spawn z).getAABB = (⟨0.306, -1, z - 0.125⟩, ⟨0.9, 1, z + 0.125⟩) ∧
    sphereIntersectsAABB ⟨-track.laneOffset, y, z⟩ 0.18
      ((Obstacle.new .GATE_LEFT).spawn z).getAABB.1 ((Obstacle.new .GATE_LEFT).spawn z).getAABB.2
      = false ∧
    sphereIntersectsAABB ⟨0, y, z⟩ 0.18
      ((Obstacle.new .GATE_LEFT).spawn z).getAABB.1 ((Obstacle.new .GATE_LEFT).spawn z).getAABB.2
      = false ∧
    sphereIntersectsAABB ⟨track.laneOffset, y, z⟩ 0.18
      ((Obstacle.new .GATE_LEFT).spawn z).getAABB.1 ((Obstacle.new .GATE_LEFT).spawn z).getAABB.2
      = true ∧
    ((Obstacle.new .GATE_RIGHT).spawn z).getAABB
      = (⟨-0.9, -1, z - 0.125⟩, ⟨-0.306, 1, z + 0.125⟩) ∧
    sphereIntersectsAABB ⟨track.laneOffset, y, z⟩ 0.18
      ((Obstacle.new .GATE_RIGHT).spawn z).getAABB.1
      ((Obstacle.new .GATE_RIGHT).spawn z).getAABB.2 = false ∧
    sphereIntersectsAABB ⟨0, y, z⟩ 0.18
      ((Obstacle.new .GATE_RIGHT).spawn z).getAABB.1
      ((Obstacle.new .GATE_RIGHT).spawn z).getAABB.2 = false ∧
    sphereIntersectsAABB ⟨-track.laneOffset, y, z⟩ 0.18
      ((Obstacle.new .GATE_RIGHT).spawn z).getAABB.1
      ((Obstacle.new .GATE_RIGHT).spawn z).getAABB.2 = true := by
  have hl : ((Obstacle.new .GATE_LEFT).spawn z).getAABB
      = (⟨0.306, -1, z - 0.125⟩, ⟨0.9, 1, z + 0.125⟩) := by
    simp [Obstacle.getAABB, Obstacle.spawn, Obstacle.new, track]; norm_num
  have hr : ((Obstacle.new .GATE_RIGHT).spawn z).getAABB
      = (⟨-0.9, -1, z - 0.125⟩, ⟨-0.306, 1, z + 0.125⟩) := by
    simp [Obstacle.getAABB, Obstacle.spawn, Obstacle.new, track]; norm_num
  rw [hl, hr]
  have hz : z - 0.125 ≤ z + 0.125 := by linarith [show (0 : ℚ) ≤ 0.125 by norm_num]
  have hlo : track.laneOffset = 0.6 := rfl
  rw [hlo]
  refine ⟨rfl, ?_, ?_, ?_, rfl, ?_, ?_, ?_⟩
  · exact sphereIntersectsAABB_far _ _ _ _ (by norm_num) (by norm_num) hz (by norm_num)
      (Or.inl (Or.inl (by norm_num)))
  · exact sphereIntersectsAABB_far _ _ _ _ (by norm_num) (by norm_num) hz (by norm_num)
      (Or.inl (Or.inl (by norm_num)))
  · rw [sphereIntersectsAABB_eq_true_iff, clamp_eq_self (by norm_num) (by norm_num),
      clamp_eq_self hy.1 hy.2, clamp_eq_self (by norm_num) (by norm_num)]
    norm_num
  · exact sphereIntersectsAABB_far _ _ _ _ (by norm_num) (by norm_num) hz (by norm_num)
      (Or.inl (Or.inr (by norm_num)))
  · exact sphereIntersectsAABB_far _ _ _ _ (by norm_num) (by norm_num) hz (by norm_num)
      (Or.inl (Or.inr (by norm_num)))
  · rw [sphereIntersectsAABB_eq_true_iff, clamp_eq_self (by norm_num) (by norm_num),
      clamp_eq_self hy.1 hy.2, clamp_eq_self (by norm_num) (by norm_num)]
    norm_num

/-- Witness of `gate_blocks_one_lane_only`: a GATE_LEFT at the head's depth 0,
the head at height 0.5; on the centre lane there is no overlap. -/
theorem gate_blocks_one_lane_only_witness :
    sphereIntersectsAABB ⟨0, 0.5, 0⟩ 0.18
      ((Obstacle.new .GATE_LEFT).spawn 0).getAABB.1 ((Obstacle.new .GATE_LEFT).spawn 0).getAABB.2
      = false :=
  (gate_blocks_one_lane_only 0 0.5 (by norm_num)).2.2.1

/-- C17.  For every track speed `s` and every random draw `u` in `[0, 1)`, the
next spawn interval is
`clamp(1.4 + (s - 1.0) * (0.9 - 1.4) / (2.5 - 1.0) + (0.6 * u - 0.3), 0.75, 1.8)`
(the clamp being `max(0.75, min(1.8, ·))`); the linear map sends speed 1.0 to
1.4 and speed 2.5 to 0.9, the jitter lies within ±0.3, the result lies in
`[0.75, 1.8]`, and `spawner.spawn` (with the track placed) stores this value,
at the track's speed and the jitter draw, in `spawner.nextIn`. -/
theorem spawn_interval (s u : ℚ) (hu : 0 ≤ u ∧ u < 1) :
    spawner.nextInterval s u
      = max 0.75 (min 1.8 (1.4 + (s - 1.0) * (0.9 - 1.4) / (2.5 - 1.0) + (0.6 * u - 0.3))) ∧
    MathUtils.mapLinear 1.0 1.0 2.5 1.4 0.9 = 1.4 ∧
    MathUtils.mapLinear 2.5 1.0 2.5 1.4 0.9 = 0.9 ∧
    (-0.3 ≤ 0.6 * u - 0.3 ∧ 0.6 * u - 0.3 ≤ 0.3) ∧
    (0.75 ≤ spawner.nextInterval s u ∧ spawner.nextInterval s u ≤ 1.8) ∧
    (∀ (st : State) (rnd : Rand), st.trackRoot = true →
      (spawner.spawn st rnd).spawner.nextIn = spawner.nextInterval track.speed rnd.jitter) := by
  refine ⟨?_, ?_, ?_, ?_, ?_, ?_⟩
  · simp only [spawner.nextInterval, MathUtils.clamp, MathUtils.mapLinear]
    congr 3
    ring
  · simp only [MathUtils.mapLinear]; norm_num
  · simp only [MathUtils.mapLinear]; norm_num
  · constructor
    · linarith [hu.1]
    · linarith [hu.2]
  · simp only [spawner.nextInterval, MathUtils.clamp]
    constructor
    · exact le_max_left _ _
    · exact max_le (by norm_num) (min_le_left _ _)
  · intro st rnd htr
    simp [spawner.spawn, htr, spawner.nextInterval]

/-- Witness of `spawn_interval`: the track's speed 1.5 and the draw 0.5 give
the interval `1.4 - 1/6`. -/
theorem spawn_interval_witness :
    spawner.nextInterval 1.5 0.5
      = max 0.75 (min 1.8 (1.4 + (1.5 - 1.0) * (0.9 - 1.4) / (2.5 - 1.0) + (0.6 * 0.5 - 0.3))) ∧
    spawner.nextInterval 1.5 0.5 = 37 / 30 :=
  ⟨(spawn_interval 1.5 0.5 (by norm_num)).1, by decide!⟩

/-- C19 (evaluation at the failing input).  A hurdle spawned at `z = -3.5` and
advanced through `hurdleFramesWithJump` is cleared in frame 133, the first
frame in which it is inside the window, and 2 points are awarded; up to frame
152 nothing else happens; then each of the frames 153 to 164, in which
`0.3 < z ≤ 0.6`, registers a miss for the cleared hurdle: when it is recycled
the score state is score 2, combo 0, misses 12. -/
theorem cleared_hurdle_registers_misses :
    (obstaclePass 0.18 ((Obstacle.new .HURDLE).spawn (-3.5), Game.init)
      (hurdleFramesWithJump.take 132)) = ({ (Obstacle.new .HURDLE).spawn (-3.5) with
        position := ⟨0, 0, -0.2⟩ }, Game.init) ∧
    (obstaclePass 0.18 ((Obstacle.new .HURDLE).spawn (-3.5), Game.init)
      (hurdleFramesWithJump.take 133)) = ({ (Obstacle.new .HURDLE).spawn (-3.5) with
        position := ⟨0, 0, -0.175⟩, _cleared := true }, addScore Game.init 2) ∧
    (obstaclePass 0.18 ((Obstacle.new .HURDLE).spawn (-3.5), Game.init)
      (hurdleFramesWithJump.take 152)).2 = addScore Game.init 2 ∧
    (obstaclePass 0.18 ((Obstacle.new .HURDLE).spawn (-3.5), Game.init)
      (hurdleFramesWithJump.take 153)).2 = addMiss (addScore Game.init 2) ∧
    (obstaclePass 0.18 ((Obstacle.new .HURDLE).spawn (-3.5), Game.init)
      hurdleFramesWithJump).1.active = false ∧
    (obstaclePass 0.18 ((Obstacle.new .HURDLE).spawn (-3.5), Game.init)
      hurdleFramesWithJump).2 = { score := 2, combo := 0, misses := 12, running := true } := by
  decide!

/-- C20 (evaluation at the failing input).  A GATE_LEFT spawned at `z = -3.5`
and advanced through `blockedLaneFrames`, with the head of radius 0.18 held in
the blocked right lane: the head overlaps the gate's box in the frames 128 to
152 and a miss is registered in each of them (25 misses); in frame 153, the
first with `z > 0.3`, the sphere no longer overlaps and the gate is awarded its
point all the same. -/
theorem gate_scores_after_misses :
    (obstaclePass 0.18 ((Obstacle.new .GATE_LEFT).spawn (-3.5), Game.init)
      (blockedLaneFrames.take 127)).2 = Game.init ∧
    (obstaclePass 0.18 ((Obstacle.new .GATE_LEFT).spawn (-3.5), Game.init)
      (blockedLaneFrames.take 128)).2 = addMiss Game.init ∧
    (obstaclePass 0.18 ((Obstacle.new .GATE_LEFT).spawn (-3.5), Game.init)
      (blockedLaneFrames.take 152)).2 = { score := 0, combo := 0, misses := 25, running := true } ∧
    (obstaclePass 0.18 ((Obstacle.new .GATE_LEFT).spawn (-3.5), Game.init)
      (blockedLaneFrames.take 153)).2 = { score := 1, combo := 1, misses := 25, running := true } ∧
    (obstaclePass 0.18 ((Obstacle.new .GATE_LEFT).spawn (-3.5), Game.init)
      blockedLaneFrames).1.active = false ∧
    (obstaclePass 0.18 ((Obstacle.new .GATE_LEFT).spawn (-3.5), Game.init)
      blockedLaneFrames).2 = { score := 1, combo := 1, misses := 25, running := true } := by
  decide!

/-! ## Placement -/

/-- C18 (evaluation at the failing input).  A placement in the middle of a
calibration window (after `midCalibrationRun`) is accepted and keeps the
accumulator with its 20 samples of height 1.6, so that with two further frames
at height 1.0 the next baseline is set by the second of them and is `17/11`,
computed from 20 samples received before the placement and 2 after it, not
1.0; and a placement after `afterJumpsRun` keeps `lastJumpAt` and the debounce
time at 2.7 instead of their initial values. -/
theorem placement_keeps_accumulator_and_jump_state :
    (run State.init midCalibrationRun).placing = true ∧
    (run State.init midCalibrationRun).reticleVisible = true ∧
    (onSelectPlace (run State.init midCalibrationRun)).trackRoot = true ∧
    (onSelectPlace (run State.init midCalibrationRun)).player._acc
      = some { sum := 32, n := 20, t0 := 0 } ∧
    (run (onSelectPlace (run State.init midCalibrationRun))
      [.frame (hitFrame 2000 1), .frame (hitFrame 2100 1)]).player.baselineY = some (17 / 11) ∧
    (onSelectPlace (run State.init afterJumpsRun)).trackRoot = true ∧
    (onSelectPlace (run State.init afterJumpsRun)).player.lastJumpAt = 2.7 ∧
    (onSelectPlace (run State.init afterJumpsRun)).player._lastJump = some 2.7 ∧
    Player.init.lastJumpAt = 0 ∧ Player.init._lastJump = none ∧ Player.init._acc = none := by
  decide!

/-- The assignments of `onSelectPlace`.  After an accepted track placement
(placing mode on and reticle visible) in any state, the track root exists, the
player's baseline, smoothed height and last sample (height and time) are
absent and the smoothed velocity is 0; `lastJumpAt`, the debounce time
`_lastJump` and the duck flag are the ones from before the placement. -/
theorem placement_resets_estimator (s : State) (hp : s.placing = true)
    (hr : s.reticleVisible = true) :
    (onSelectPlace s).trackRoot = true ∧
    (onSelectPlace s).player.baselineY = none ∧ (onSelectPlace s).player.smoothY = none ∧
    (onSelectPlace s).player.smoothVy = 0 ∧ (onSelectPlace s).player.lastY = none ∧
    (onSelectPlace s).player.lastT = none ∧
    (onSelectPlace s).player.lastJumpAt = s.player.lastJumpAt ∧
    (onSelectPlace s).player._lastJump = s.player._lastJump ∧
    (onSelectPlace s).player._duckOn = s.player._duckOn := by
  simp [onSelectPlace, placeTrackAtReticle, hp, hr]

/-- Witness of `placement_resets_estimator`: the placement after
`midCalibrationRun`. -/
theorem placement_resets_estimator_witness :
    (run State.init midCalibrationRun).player.lastY = some 1.6 ∧
    (onSelectPlace (run State.init midCalibrationRun)).trackRoot = true ∧
    (onSelectPlace (run State.init midCalibrationRun)).player.baselineY = none ∧
    (onSelectPlace (run State.init midCalibrationRun)).player.lastY = none :=
  ⟨by decide!,
    (placement_resets_estimator (run State.init midCalibrationRun) (by decide!) (by decide!)).1,
    (placement_resets_estimator (run State.init midCalibrationRun) (by decide!) (by decide!)).2.1,
    (placement_resets_estimator (run State.init midCalibrationRun) (by decide!)
      (by decide!)).2.2.2.2.1⟩

/-- C10 (evaluation at the failing input).  The placement after
`midCalibrationRun` leaves the player freshly reset: baseline, smoothed height
and last sample absent, smoothed velocity 0, duck state off, no remembered
jump; only the accumulator still holds the 20 samples of height 1.6 from
before the placement.  In the frames of `framesAfterPlacement`, whose head
height is the constant 1.0 with increasing timestamps, the first leaves the
baseline absent and the duck state off, the second sets the baseline to
`17/11` while the smoothed height is 1, which switches the duck state on, and
it stays on in the frames that follow; the smoothed velocity stays 0 and no
jump fires. -/
theorem constant_height_after_placement_ducks :
    (placedMidCalibration.trackRoot = true ∧
      placedMidCalibration.player.baselineY = none ∧
      placedMidCalibration.player.smoothY = none ∧
      placedMidCalibration.player.smoothVy = 0 ∧
      placedMidCalibration.player.lastY = none ∧
      placedMidCalibration.player.lastT = none ∧
      placedMidCalibration.player._duckOn = false ∧
      placedMidCalibration.player._lastJump = none ∧
      placedMidCalibration.player.lastJumpAt = 0 ∧
      placedMidCalibration.player._acc = some { sum := 32, n := 20, t0 := 0 }) ∧
    framesAfterPlacement.map (fun f => (f.t, f.pose.map Vec3.y))
      = [(2000, some 1), (2100, some 1), (2200, some 1), (2300, some 1)] ∧
    (run placedMidCalibration ((framesAfterPlacement.take 1).map Op.frame)).player.baselineY
      = none ∧
    (run placedMidCalibration ((framesAfterPlacement.take 1).map Op.frame)).player._duckOn
      = false ∧
    (run placedMidCalibration ((framesAfterPlacement.take 2).map Op.frame)).player.baselineY
      = some (17 / 11) ∧
    (run placedMidCalibration ((framesAfterPlacement.take 2).map Op.frame)).player.smoothY
      = some 1 ∧
    (run placedMidCalibration ((framesAfterPlacement.take 2).map Op.frame)).player._duckOn
      = true ∧
    (run placedMidCalibration ((framesAfterPlacement.take 3).map Op.frame)).player._duckOn
      = true ∧
    (run placedMidCalibration (framesAfterPlacement.map Op.frame)).player._duckOn = true ∧
    (run placedMidCalibration (framesAfterPlacement.map Op.frame)).player.smoothVy = 0 ∧
    (run placedMidCalibration (framesAfterPlacement.map Op.frame)).player.lastJumpAt = 0 := by
  decide!

/-! ## Calibration -/

/-- What the calibration block does to the baseline and the accumulator. -/
theorem calibrate_eq (p : Player) (now y : ℚ) :
    (∀ b, p.baselineY = some b →
      (onXRFrame.calibrate p now y).baselineY = some b ∧
      (onXRFrame.calibrate p now y)._acc = p._acc) ∧
    (p.baselineY = none → ∀ a : Acc, a = p._acc.getD { sum := 0, n := 0, t0 := now } →
      (now - a.t0 > 2 ∧ a.n + 1 > 20 →
        (onXRFrame.calibrate p now y).baselineY = some ((a.sum + y) / ((a.n + 1 : ℕ) : ℚ)) ∧
        (onXRFrame.calibrate p now y)._acc = none) ∧
      (¬ (now - a.t0 > 2 ∧ a.n + 1 > 20) →
        (onXRFrame.calibrate p now y).baselineY = none ∧
        (onXRFrame.calibrate p now y)._acc
          = some { sum := a.sum + y, n := a.n + 1, t0 := a.t0 })) := by
  unfold onXRFrame.calibrate
  constructor
  · intro b hb
    simp [hb]
  · intro hb a ha
    cases hacc : p._acc with
    | none =>
      rw [hacc] at ha
      simp only [Option.getD_none] at ha
      subst ha
      simp only [hb]
      constructor
      · intro h; exfalso; norm_num at h
      · intro h
        have h' : ¬ (now - now > 2.0 ∧ 0 + 1 > 20) := by norm_num
        simp only [h', if_false]
        exact ⟨trivial, trivial⟩
    | some a0 =>
      rw [hacc] at ha
      simp only [Option.getD_some] at ha
      subst ha
      simp only [hb]
      constructor
      · intro h
        have h' : now - a.t0 > 2.0 ∧ a.n + 1 > 20 := ⟨by norm_num; linarith [h.1], h.2⟩
        simp only [h', and_self, if_true]
      · intro h
        have h' : ¬ (now - a.t0 > 2.0 ∧ a.n + 1 > 20) := by
          intro h2; exact h ⟨by have := h2.1; norm_num at this; linarith, h2.2⟩
        simp only [h', if_false]
        exact ⟨trivial, trivial⟩

/-- The baseline and the accumulator after a frame with a pose are those the
calibration block computes from the ones before. -/
theorem onXRFrame_calibration (s : State) (f : FrameInput) (head : Vec3)
    (hp : f.pose = some head) :
    ∃ p : Player, p.baselineY = s.player.baselineY ∧ p._acc = s.player._acc ∧
      (onXRFrame s f).player.baselineY
        = (onXRFrame.calibrate p (f.t * 0.001) head.y).baselineY ∧
      (onXRFrame s f).player._acc = (onXRFrame.calibrate p (f.t * 0.001) head.y)._acc := by
  obtain ⟨m1, m2, -, -⟩ := metrics_spec s.player (f.t * 0.001) head.y
  obtain ⟨g1, g2, -, -, -⟩ := gestures_spec
    (onXRFrame.estimate s.trackRoot s.player (f.t * 0.001) head.y f.headLocal.x) (f.t * 0.001)
  refine ⟨onXRFrame.metrics s.player (f.t * 0.001) head.y, m1, m2, ?_, ?_⟩
  · rw [onXRFrame_player s f head hp, g1]; rfl
  · rw [onXRFrame_player s f head hp, g2]; rfl

theorem calibrationDue_nil : ¬ calibrationDue [] := by
  intro h
  exact absurd h.1 (by simp)

theorem accOf_getD_snoc (sm : List (ℚ × ℚ)) (x : ℚ × ℚ) :
    accOf (sm ++ [x])
      = some { sum := ((accOf sm).getD { sum := 0, n := 0, t0 := x.1 }).sum + x.2,
               n := ((accOf sm).getD { sum := 0, n := 0, t0 := x.1 }).n + 1,
               t0 := ((accOf sm).getD { sum := 0, n := 0, t0 := x.1 }).t0 } := by
  cases sm with
  | nil => simp [accOf]
  | cons a rest => simp [accOf]; ring

theorem accOf_getD_spec (sm : List (ℚ × ℚ)) (t : ℚ) :
    ((accOf sm).getD { sum := 0, n := 0, t0 := t }).sum = (sm.map Prod.snd).sum ∧
    ((accOf sm).getD { sum := 0, n := 0, t0 := t }).n = sm.length := by
  cases sm with
  | nil => simp [accOf]
  | cons a rest => simp [accOf]

theorem calibrationDue_snoc (sm : List (ℚ × ℚ)) (x : ℚ × ℚ) :
    calibrationDue (sm ++ [x]) ↔
      (x.1 - ((accOf sm).getD { sum := 0, n := 0, t0 := x.1 }).t0 > 2 ∧
        ((accOf sm).getD { sum := 0, n := 0, t0 := x.1 }).n + 1 > 20) := by
  unfold calibrationDue
  cases sm with
  | nil =>
    simp [accOf]
  | cons a rest =>
    have hl : (a :: rest ++ [x]).getLast? = some x := by
      rw [List.getLast?_append]
      simp
    have hlen : (a :: rest ++ [x]).length = (a :: rest).length + 1 := by simp
    have hh : (a :: rest ++ [x]).head? = some a := rfl
    rw [hl, hlen, hh]
    simp only [accOf, Option.getD_some]
    constructor
    · rintro ⟨h1, a', b', ha', hb', h2⟩
      cases ha'
      cases hb'
      exact ⟨h2, h1⟩
    · rintro ⟨h1, h2⟩
      exact ⟨h2, a, x, rfl, rfl, h1⟩

theorem dueSomewhere_snoc (sm : List (ℚ × ℚ)) (x : ℚ × ℚ) :
    (∃ k, calibrationDue ((sm ++ [x]).take k)) ↔
      (∃ k, calibrationDue (sm.take k)) ∨ calibrationDue (sm ++ [x]) := by
  constructor
  · rintro ⟨k, hk⟩
    rcases le_or_lt k sm.length with h | h
    · left
      exact ⟨k, by rwa [List.take_append_of_le_length h] at hk⟩
    · right
      rwa [List.take_of_length_le (by simp; omega)] at hk
  · rintro (⟨k, hk⟩ | h)
    · rcases le_or_lt k sm.length with h | h
      · exact ⟨k, by rwa [List.take_append_of_le_length h]⟩
      · rw [List.take_of_length_le (by omega)] at hk
        exact ⟨sm.length, by rwa [List.take_append_of_le_length (le_refl _), List.take_length]⟩
    · exact ⟨sm.length + 1, by rwa [List.take_of_length_le (by simp)]⟩

theorem run_frames_snoc (s : State) (fs : List FrameInput) (f : FrameInput) :
    run s ((fs ++ [f]).map Op.frame) = onXRFrame (run s (fs.map Op.frame)) f := by
  simp [run, List.foldl_append, Op.apply]

theorem frameSamples_snoc (fs : List FrameInput) (f : FrameInput) :
    frameSamples (fs ++ [f])
      = frameSamples fs ++ (match f.pose with
          | none => []
          | some head => [(f.t * 0.001, head.y)]) := by
  unfold frameSamples
  rw [List.filterMap_append]
  cases h : f.pose <;> simp [List.filterMap_cons, h]

/-- From a state without baseline and without accumulator, after any frames:
if the calibration condition held at some frame the baseline is set, otherwise
it is absent and the accumulator holds exactly the samples seen. -/
theorem calibration_invariant (s : State) (hb : s.player.baselineY = none)
    (ha : s.player._acc = none) (fs : List FrameInput) :
    ((∃ k, calibrationDue ((frameSamples fs).take k)) →
      (run s (fs.map Op.frame)).player.baselineY.isSome = true) ∧
    (¬ (∃ k, calibrationDue ((frameSamples fs).take k)) →
      (run s (fs.map Op.frame)).player.baselineY = none ∧
      (run s (fs.map Op.frame)).player._acc = accOf (frameSamples fs)) := by
  induction fs using List.reverseRecOn with
  | nil =>
    refine ⟨?_, fun _ => ⟨hb, ha⟩⟩
    rintro ⟨k, hk⟩
    simp only [frameSamples, List.filterMap_nil, List.take_nil] at hk
    exact absurd hk calibrationDue_nil
  | append_singleton fs f ih =>
    obtain ⟨ih1, ih2⟩ := ih
    rw [run_frames_snoc, frameSamples_snoc]
    cases hp : f.pose with
    | none =>
      simp only [List.append_nil]
      rw [onXRFrame_no_pose _ f hp]
      exact ⟨ih1, ih2⟩
    | some head =>
      simp only
      obtain ⟨p, pb, pa, cb, ca⟩ := onXRFrame_calibration (run s (fs.map Op.frame)) f head hp
      obtain ⟨e1, e2⟩ := calibrate_eq p (f.t * 0.001) head.y
      rw [cb, ca, dueSomewhere_snoc]
      by_cases hD : ∃ k, calibrationDue ((frameSamples fs).take k)
      · have hsome := ih1 hD
        rw [← pb] at hsome
        obtain ⟨b, hb'⟩ := Option.isSome_iff_exists.mp hsome
        refine ⟨fun _ => ?_, fun h => absurd (Or.inl hD) h⟩
        rw [(e1 b hb').1]
        rfl
      · obtain ⟨i1, i2⟩ := ih2 hD
        rw [← pb] at i1
        rw [← pa] at i2
        obtain ⟨c1, c2⟩ := e2 i1 _ rfl
        rw [i2] at c1 c2
        have hdue := calibrationDue_snoc (frameSamples fs) (f.t * 0.001, head.y)
        simp only at hdue
        by_cases hc : calibrationDue (frameSamples fs ++ [(f.t * 0.001, head.y)])
        · refine ⟨fun _ => ?_, fun h => absurd (Or.inr hc) h⟩
          rw [(c1 (hdue.mp hc)).1]
          rfl
        · have hn := c2 (fun h => hc (hdue.mpr h))
          refine ⟨fun h => ?_, fun _ => ?_⟩
          · rcases h with h | h
            · exact absurd h hD
            · exact absurd h hc
          · rw [accOf_getD_snoc]
            exact hn

/-- C11 (counterexample).  From the initial state, after the 20 frames of
`twentyFrames` the 2-second window has elapsed since the first sample (2.09 s)
and 20 samples, counting the current one, have been collected, yet the
baseline is still absent; it becomes set with the 21st sample. -/
theorem twenty_samples_do_not_calibrate :
    State.init.player.baselineY = none ∧ State.init.player._acc = none ∧
    (frameSamples twentyFrames).length = 20 ∧
    (frameSamples twentyFrames).head? = some (0, 1.6) ∧
    (frameSamples twentyFrames).getLast? = some (2.09, 1.6) ∧
    (run State.init (twentyFrames.map Op.frame)).player.baselineY = none ∧
    (run State.init ((twentyFrames ++ [headFrame 2200 1.6]).map Op.frame)).player.baselineY
      = some 1.6 := by
  decide!

/-- C11 (amended).  Starting from a player without baseline and without
accumulated samples, after the first `k` frames of any sequence the baseline
is set if and only if, at one of these frames, more than 2 s had elapsed since
the first accumulated sample and more than 20 samples (at least 21, counting
that frame's) had been collected: the baseline stays absent until the first
such frame and is set on it. -/
theorem baseline_set_iff_calibration_due (s : State) (hb : s.player.baselineY = none)
    (ha : s.player._acc = none) (fs : List FrameInput) (k : ℕ) :
    (run s ((fs.take k).map Op.frame)).player.baselineY.isSome = true ↔
      ∃ j, calibrationDue ((frameSamples (fs.take k)).take j) := by
  obtain ⟨h1, h2⟩ := calibration_invariant s hb ha (fs.take k)
  constructor
  · intro h
    by_contra hD
    rw [(h2 hD).1] at h
    cases h
  · exact h1

/-- Witness of `baseline_set_iff_calibration_due`: the 22 frames of
`restFrames` from the initial state; the baseline is absent after 21 frames
and set after 22. -/
theorem baseline_set_iff_calibration_due_witness :
    ((run State.init ((restFrames.take 22).map Op.frame)).player.baselineY.isSome = true ↔
      ∃ j, calibrationDue ((frameSamples (restFrames.take 22)).take j)) ∧
    (run State.init ((restFrames.take 21).map Op.frame)).player.baselineY = none ∧
    (run State.init ((restFrames.take 22).map Op.frame)).player.baselineY = some 1.6 :=
  ⟨baseline_set_iff_calibration_due State.init rfl rfl restFrames 22, by decide!, by decide!⟩

theorem opFrames_append (ops ops' : List Op) :
    opFrames (ops ++ ops') = opFrames ops ++ opFrames ops' := by
  induction ops with
  | nil => rfl
  | cons op rest ih => cases op <;> simp [opFrames, ih]

theorem run_snoc (s : State) (ops : List Op) (op : Op) :
    run s (ops ++ [op]) = Op.apply (run s ops) op := by
  simp [run, List.foldl_append]

/-- While the baseline has been absent throughout a run from a state without
baseline and accumulator, the accumulator holds exactly the samples of the
run's frames. -/
theorem accumulator_invariant (s : State) (ha : s.player._acc = none) (ops : List Op)
    (hnone : ∀ k ≤ ops.length, (run s (ops.take k)).player.baselineY = none) :
    (run s ops).player._acc = accOf (frameSamples (opFrames ops)) := by
  induction ops using List.reverseRecOn with
  | nil => exact ha
  | append_singleton ops op ih =>
    have hprev : ∀ k ≤ ops.length, (run s (ops.take k)).player.baselineY = none := by
      intro k hk
      have := hnone k (by simp; omega)
      rwa [List.take_append_of_le_length hk] at this
    have hacc := ih hprev
    have hb0 : (run s ops).player.baselineY = none := by
      have := hprev ops.length (le_refl _)
      rwa [List.take_length] at this
    have hb1 : (Op.apply (run s ops) op).player.baselineY = none := by
      have := hnone (ops ++ [op]).length (le_refl _)
      rwa [List.take_length, run_snoc] at this
    rw [run_snoc, opFrames_append]
    by_cases hop : ∃ f, op = .frame f
    · obtain ⟨f, rfl⟩ := hop
      have hof : opFrames [Op.frame f] = [f] := rfl
      rw [hof, frameSamples_snoc]
      simp only [Op.apply] at hb1 ⊢
      cases hp : f.pose with
      | none =>
        rw [onXRFrame_no_pose _ f hp]
        simpa using hacc
      | some head =>
        obtain ⟨p, pb, pa, cb, ca⟩ := onXRFrame_calibration (run s ops) f head hp
        obtain ⟨-, e2⟩ := calibrate_eq p (f.t * 0.001) head.y
        obtain ⟨c1, c2⟩ := e2 (pb.trans hb0) _ rfl
        rw [cb] at hb1
        rw [ca]
        by_cases hc : f.t * 0.001 - (p._acc.getD { sum := 0, n := 0, t0 := f.t * 0.001 }).t0 > 2 ∧
            (p._acc.getD { sum := 0, n := 0, t0 := f.t * 0.001 }).n + 1 > 20
        · rw [(c1 hc).1] at hb1
          cases hb1
        · rw [(c2 hc).2, pa, hacc, accOf_getD_snoc]
    · have hop' : ∀ f, op ≠ .frame f := fun f e => hop ⟨f, e⟩
      obtain ⟨-, a2, -⟩ := apply_player_of_not_frame (run s ops) op hop'
      have hof : opFrames [op] = [] := by
        cases op <;> first | rfl | exact absurd rfl (hop' _)
      rw [a2, hof, List.append_nil]
      exact hacc

/-- C12.  From a state without baseline and without accumulated samples,
through any run (frames and other operations) during which the baseline has
been absent throughout: whenever the next frame (with a pose) sets the
baseline, its value is the arithmetic mean, sum divided by count, of the raw
head heights of all frames accumulated so far, the current one included. -/
theorem baseline_is_mean_of_samples (s : State) (ha : s.player._acc = none) (ops : List Op)
    (hnone : ∀ k ≤ ops.length, (run s (ops.take k)).player.baselineY = none)
    (f : FrameInput) (head : Vec3) (hp : f.pose = some head) (b : ℚ)
    (h1 : (onXRFrame (run s ops) f).player.baselineY = some b) :
    b = ((frameSamples (opFrames ops ++ [f])).map Prod.snd).sum
          / ((frameSamples (opFrames ops ++ [f])).length : ℚ) ∧
    frameSamples (opFrames ops ++ [f]) = frameSamples (opFrames ops) ++ [(f.t * 0.001, head.y)] := by
  have hs : frameSamples (opFrames ops ++ [f])
      = frameSamples (opFrames ops) ++ [(f.t * 0.001, head.y)] := by
    rw [frameSamples_snoc, hp]
  refine ⟨?_, hs⟩
  have hacc := accumulator_invariant s ha ops hnone
  have hb0 : (run s ops).player.baselineY = none := by
    have := hnone ops.length (le_refl _)
    rwa [List.take_length] at this
  obtain ⟨p, pb, pa, cb, -⟩ := onXRFrame_calibration (run s ops) f head hp
  obtain ⟨-, e2⟩ := calibrate_eq p (f.t * 0.001) head.y
  rw [cb] at h1
  obtain ⟨c1, c2⟩ := e2 (pb.trans hb0) _ rfl
  rw [pa, hacc] at c1 c2
  obtain ⟨q1, q2⟩ := accOf_getD_spec (frameSamples (opFrames ops)) (f.t * 0.001)
  by_cases hc : f.t * 0.001 - ((accOf (frameSamples (opFrames ops))).getD
      { sum := 0, n := 0, t0 := f.t * 0.001 }).t0 > 2 ∧
      ((accOf (frameSamples (opFrames ops))).getD
        { sum := 0, n := 0, t0 := f.t * 0.001 }).n + 1 > 20
  · rw [(c1 hc).1, q1, q2] at h1
    simp only [Option.some.injEq] at h1
    rw [← h1, hs]
    simp
  · rw [(c2 hc).1] at h1
    cases h1

/-- Witness of `baseline_is_mean_of_samples`: after the first 21 frames of
`restFrames` the frame at 2.1 s sets the baseline to the mean 1.6 of the 22
samples. -/
theorem baseline_is_mean_of_samples_witness :
    (onXRFrame (run State.init ((restFrames.take 21).map Op.frame))
      (headFrame 2100 1.6)).player.baselineY = some 1.6 ∧
    (1.6 : ℚ)
      = ((frameSamples (opFrames ((restFrames.take 21).map Op.frame)
            ++ [headFrame 2100 1.6])).map Prod.snd).sum
        / ((frameSamples (opFrames ((restFrames.take 21).map Op.frame)
            ++ [headFrame 2100 1.6])).length : ℚ) ∧
    (frameSamples (opFrames ((restFrames.take 21).map Op.frame)
      ++ [headFrame 2100 1.6])).length = 22 :=
  ⟨by decide!,
    (baseline_is_mean_of_samples State.init rfl ((restFrames.take 21).map Op.frame) (by decide!)
      (headFrame 2100 1.6) ⟨0, 1.6, 0⟩ rfl 1.6 (by decide!)).1, by decide!⟩

/-! ## Pool reuse and pool invariant -/

theorem new_type (X : OBST) : (Obstacle.new X).type = X ∧ (Obstacle.new X).active = false := by
  cases X <;> simp [Obstacle.new]

/-- The cases of `pool.get`: the first inactive instance of the type, or a
new instance appended to `pool.all`. -/
theorem pool_get_cases (p : Pool) (X : OBST) :
    ((∃ o ∈ p.all, o.active = false ∧ o.type = X) ∧ (pool.get p X).1.all = p.all ∧
      ∃ o, p.all[(pool.get p X).2]? = some o ∧ o.type = X ∧ o.active = false) ∨
    ((¬ ∃ o ∈ p.all, o.active = false ∧ o.type = X) ∧
      (pool.get p X).1.all = p.all ++ [Obstacle.new X] ∧ (pool.get p X).2 = p.all.length) := by
  unfold pool.get
  cases h : p.all.findIdx? (fun x => !x.active && decide (x.type = X)) with
  | some i =>
    left
    obtain ⟨hl, hp, -⟩ := List.findIdx?_eq_some_iff_getElem.mp h
    simp only [Bool.and_eq_true, Bool.not_eq_true', decide_eq_true_eq] at hp
    refine ⟨⟨p.all[i], List.getElem_mem _, hp.1, hp.2⟩, rfl, p.all[i], ?_, hp.2, hp.1⟩
    exact List.getElem?_eq_getElem hl
  | none =>
    right
    rw [List.findIdx?_eq_none_iff] at h
    refine ⟨?_, rfl, rfl⟩
    rintro ⟨o, ho, ha, ht⟩
    have := h o ho
    simp [ha, ht] at this

/-- C14.  For every pool state and type `X`: if the pool holds an inactive
instance of type `X`, `pool.get(X)` returns a reference to an instance of
`pool.all` that has type `X` and is inactive, and `pool.all` (hence the number
of constructed instances) is unchanged; if no inactive instance of type `X`
exists, it appends exactly one new instance, `new Obstacle(X)` of type `X`, to
`pool.all` and returns the reference to it.  In both cases the reference is
pushed onto `pool.active`. -/
theorem pool_get_reuses_or_constructs (p : Pool) (X : OBST) :
    ((∃ o ∈ p.all, o.active = false ∧ o.type = X) →
      (pool.get p X).1.all = p.all ∧ (pool.get p X).1.all.length = p.all.length ∧
      ∃ o, p.all[(pool.get p X).2]? = some o ∧ o.type = X ∧ o.active = false) ∧
    ((¬ ∃ o ∈ p.all, o.active = false ∧ o.type = X) →
      (pool.get p X).1.all = p.all ++ [Obstacle.new X] ∧
      (pool.get p X).1.all.length = p.all.length + 1 ∧
      (pool.get p X).2 = p.all.length ∧ (Obstacle.new X).type = X) ∧
    (pool.get p X).1.active = p.active ++ [(pool.get p X).2] := by
  refine ⟨?_, ?_, (pool_get_spec p X).1⟩
  · intro hex
    rcases pool_get_cases p X with ⟨-, h1, h2⟩ | ⟨hn, -⟩
    · exact ⟨h1, by rw [h1], h2⟩
    · exact absurd hex hn
  · intro hnex
    rcases pool_get_cases p X with ⟨hex, -⟩ | ⟨-, h1, h2⟩
    · exact absurd hex hnex
    · exact ⟨h1, by rw [h1]; simp, h2, (new_type X).1⟩

/-- Witness of `pool_get_reuses_or_constructs`: on `poolWithRecycledBar`,
acquiring an OVERHEAD_BAR reuses the recycled bar. -/
theorem pool_get_reuses_or_constructs_witness :
    (pool.get poolWithRecycledBar .OVERHEAD_BAR).1.all = poolWithRecycledBar.all ∧
    (pool.get poolWithRecycledBar .OVERHEAD_BAR).1.all.length = poolWithRecycledBar.all.length ∧
    ∃ o, poolWithRecycledBar.all[(pool.get poolWithRecycledBar .OVERHEAD_BAR).2]? = some o ∧
      o.type = .OVERHEAD_BAR ∧ o.active = false :=
  (pool_get_reuses_or_constructs poolWithRecycledBar .OVERHEAD_BAR).1
    ⟨barRecycled, List.mem_singleton.mpr rfl, by decide!, by decide!⟩

theorem spawn_pool_spec (s : State) (rnd : Rand) (htr : s.trackRoot = true) :
    ∃ X : OBST, (spawner.spawn s rnd).pool.active = (pool.get s.pool X).1.active ∧
      (∀ j, j ≠ (pool.get s.pool X).2 →
        (spawner.spawn s rnd).pool.all[j]? = (pool.get s.pool X).1.all[j]?) ∧
      (∀ o, (pool.get s.pool X).1.all[(pool.get s.pool X).2]? = some o →
        ∃ o', (spawner.spawn s rnd).pool.all[(pool.get s.pool X).2]? = some o' ∧
          o'.active = true) := by
  unfold spawner.spawn
  simp only [htr, Bool.not_true, Bool.false_eq_true, if_false]
  generalize (if rnd.r < 0.4 then OBST.OVERHEAD_BAR
    else if rnd.r < 0.75 then (if rnd.side < 0.5 then OBST.GATE_LEFT else OBST.GATE_RIGHT)
    else OBST.HURDLE) = X
  refine ⟨X, rfl, ?_, ?_⟩
  · intro j hj
    have hne : (pool.get s.pool X).2 ≠ j := fun e => hj e.symm
    split_ifs
    · rw [modifyAt_getElem?, if_neg hne, modifyAt_getElem?, if_neg hne]
    · rw [modifyAt_getElem?, if_neg hne]
  · intro o ho
    split_ifs
    · rw [modifyAt_getElem?, if_pos rfl, modifyAt_getElem?, if_pos rfl, ho]
      exact ⟨_, rfl, rfl⟩
    · rw [modifyAt_getElem?, if_pos rfl, ho]
      exact ⟨_, rfl, rfl⟩

theorem spawn_poolInv (s : State) (rnd : Rand) (h : PoolInv s.pool) :
    PoolInv (spawner.spawn s rnd).pool := by
  by_cases htr : s.trackRoot = true
  · obtain ⟨hnd, hact, hfl⟩ := h
    obtain ⟨X, sa, sne, sat⟩ := spawn_pool_spec s rnd htr
    obtain ⟨ga, -⟩ := pool_get_spec s.pool X
    have hfresh : (pool.get s.pool X).2 ∉ s.pool.active ∧
        ∃ o, (pool.get s.pool X).1.all[(pool.get s.pool X).2]? = some o := by
      rcases pool_get_cases s.pool X with ⟨-, h1, o, ho, -, hoa⟩ | ⟨-, h1, h2⟩
      · refine ⟨fun hmem => ?_, o, by rw [h1]; exact ho⟩
        obtain ⟨o', ho', ha'⟩ := hact _ hmem
        rw [ho] at ho'
        cases ho'
        rw [hoa] at ha'
        cases ha'
      · refine ⟨fun hmem => ?_, Obstacle.new X, ?_⟩
        · obtain ⟨o', ho', -⟩ := hact _ hmem
          rw [h2] at ho'
          have := (List.getElem?_eq_some_iff.mp ho').1
          omega
        · rw [h1, h2]
          simp
    obtain ⟨hnot, o0, ho0⟩ := hfresh
    refine ⟨?_, ?_, spawn_flaggedInActive s rnd hfl⟩
    · rw [sa, ga]
      exact List.Nodup.append hnd (List.nodup_singleton _) (by
        intro x hx hx'
        rw [List.mem_singleton] at hx'
        exact hnot (hx' ▸ hx))
    · intro i hi
      rw [sa, ga, List.mem_append, List.mem_singleton] at hi
      by_cases hii : i = (pool.get s.pool X).2
      · rw [hii]
        exact sat o0 ho0
      · rcases hi with hi | hi
        · obtain ⟨o, ho, ha⟩ := hact i hi
          refine ⟨o, ?_, ha⟩
          rw [sne i hii]
          rcases pool_get_cases s.pool X with ⟨-, h1, -⟩ | ⟨-, h1, -⟩
          · rw [h1]; exact ho
          · rw [h1, List.getElem?_append_left (List.getElem?_eq_some_iff.mp ho).1]; exact ho
        · exact absurd hi hii
  · simp only [Bool.not_eq_true] at htr
    unfold spawner.spawn
    simp only [htr, Bool.not_false, if_true]
    exact h

theorem updateSlot_kept (dt : ℚ) (all : List Obstacle) (i : ℕ) (ob : Obstacle)
    (hi : all[i]? = some ob) (ha : ob.active = true) (hk : (pool.updateSlot dt all i).2 = true) :
    ∃ o', (pool.updateSlot dt all i).1[i]? = some o' ∧ o'.active = true := by
  have hl : i < all.length := (List.getElem?_eq_some_iff.mp hi).1
  have hu : (ob.update dt).active = true := (update_kinematics ob dt ha).2.2.2
  unfold pool.updateSlot at hk ⊢
  rw [hi] at hk ⊢
  dsimp only at hk ⊢
  split_ifs at hk ⊢ with h6
  · exact ⟨_, List.getElem?_set_self hl, hu⟩

theorem updateLoop_inv (dt : ℚ) (act : List ℕ) (all : List Obstacle) (hnd : act.Nodup)
    (hact : ∀ i ∈ act, ∃ o : Obstacle, all[i]? = some o ∧ o.active = true) :
    List.Sublist (pool.updateLoop dt act all).1 act ∧
    ∀ i ∈ (pool.updateLoop dt act all).1,
      ∃ o : Obstacle, (pool.updateLoop dt act all).2[i]? = some o ∧ o.active = true := by
  induction act with
  | nil =>
    simp only [pool.updateLoop]
    exact ⟨List.Sublist.refl _, fun i hi => absurd hi (List.not_mem_nil i)⟩
  | cons i rest ih =>
    obtain ⟨hirest, hndrest⟩ := List.nodup_cons.mp hnd
    obtain ⟨ih1, ih2⟩ := ih hndrest (fun j hj => hact j (List.mem_cons_of_mem _ hj))
    obtain ⟨-, -, l3⟩ := updateLoop_spec dt rest all
    obtain ⟨s1, -⟩ := updateSlot_spec dt (pool.updateLoop dt rest all).2 i
    obtain ⟨ob, hob, hoba⟩ := hact i (List.mem_cons_self _ _)
    have hi1 : (pool.updateLoop dt rest all).2[i]? = some ob := by rw [l3 i hirest]; exact hob
    simp only [pool.updateLoop]
    by_cases hk : (pool.updateSlot dt (pool.updateLoop dt rest all).2 i).2 = true
    · simp only [hk, if_true]
      refine ⟨List.Sublist.cons₂ _ ih1, ?_⟩
      intro j hj
      by_cases hji : j = i
      · rw [hji]; exact updateSlot_kept dt _ i ob hi1 hoba hk
      · have hjr : j ∈ (pool.updateLoop dt rest all).1 := by
          rcases List.mem_cons.mp hj with e | e
          · exact absurd e hji
          · exact e
        rw [s1 j hji]
        exact ih2 j hjr
    · simp only [hk, Bool.false_eq_true, if_false]
      refine ⟨List.Sublist.cons _ ih1, ?_⟩
      intro j hj
      have hji : j ≠ i := fun e => hirest (e ▸ ih1.subset hj)
      rw [s1 j hji]
      exact ih2 j hj

theorem update_poolInv (p : Pool) (dt : ℚ) (h : PoolInv p) : PoolInv (pool.update p dt) := by
  obtain ⟨hnd, hact, hfl⟩ := h
  obtain ⟨u1, u2⟩ := updateLoop_inv dt p.active p.all hnd hact
  exact ⟨u1.nodup hnd, u2, update_flaggedInActive p dt hfl⟩

theorem resolve_kept (now lj : ℚ) (c : Vec3) (r : ℚ) (ob : Obstacle) (game : Game)
    (ha : ob.active = true) (hk : (onXRFrame.resolve now lj c r ob game).2.2 = false) :
    (onXRFrame.resolve now lj c r ob game).1.active = true := by
  obtain ⟨a1, -, -, a4, -⟩ := hurdleBranch_kinematics now lj (ob, game)
  obtain ⟨b1, -, -, b4, -⟩ :=
    collisionBranch_kinematics c r (onXRFrame.hurdleBranch now lj (ob, game))
  unfold onXRFrame.resolve onXRFrame.recycleStep at hk ⊢
  split_ifs at hk ⊢ with h6
  · simp only [b4, a4]
    exact ha

theorem collide_inv (now lj : ℚ) (c : Vec3) (r : ℚ) (act : List ℕ) (all : List Obstacle)
    (game : Game) (hnd : act.Nodup)
    (hact : ∀ i ∈ act, ∃ o : Obstacle, all[i]? = some o ∧ o.active = true) :
    List.Sublist (onXRFrame.collide now lj c r act all game).1 act ∧
    ∀ i ∈ (onXRFrame.collide now lj c r act all game).1,
      ∃ o : Obstacle, (onXRFrame.collide now lj c r act all game).2.1[i]? = some o ∧
        o.active = true := by
  induction act with
  | nil =>
    simp only [onXRFrame.collide]
    exact ⟨List.Sublist.refl _, fun i hi => absurd hi (List.not_mem_nil i)⟩
  | cons i rest ih =>
    obtain ⟨hirest, hndrest⟩ := List.nodup_cons.mp hnd
    obtain ⟨ih1, ih2⟩ := ih hndrest (fun j hj => hact j (List.mem_cons_of_mem _ hj))
    obtain ⟨-, -, l3⟩ := collide_spec now lj c r rest all game
    obtain ⟨ob, hob, hoba⟩ := hact i (List.mem_cons_self _ _)
    have hi1 : (onXRFrame.collide now lj c r rest all game).2.1[i]? = some ob := by
      rw [l3 i hirest]; exact hob
    have hl : i < (onXRFrame.collide now lj c r rest all game).2.1.length :=
      (List.getElem?_eq_some_iff.mp hi1).1
    simp only [onXRFrame.collide, hi1]
    by_cases hk : (onXRFrame.resolve now lj c r ob
        (onXRFrame.collide now lj c r rest all game).2.2).2.2 = true
    · simp only [hk, if_true]
      refine ⟨List.Sublist.cons _ ih1, ?_⟩
      intro j hj
      have hji : j ≠ i := fun e => hirest (e ▸ ih1.subset hj)
      rw [List.getElem?_set_ne (Ne.symm hji)]
      exact ih2 j hj
    · simp only [Bool.not_eq_true] at hk
      simp only [hk, Bool.false_eq_true, if_false]
      refine ⟨List.Sublist.cons₂ _ ih1, ?_⟩
      intro j hj
      by_cases hji : j = i
      · rw [hji, List.getElem?_set_self hl]
        exact ⟨_, rfl, resolve_kept now lj c r ob _ hoba hk⟩
      · have hjr : j ∈ (onXRFrame.collide now lj c r rest all game).1 := by
          rcases List.mem_cons.mp hj with e | e
          · exact absurd e hji
          · exact e
        rw [List.getElem?_set_ne (Ne.symm hji)]
        exact ih2 j hjr

theorem collide_poolInv (now lj : ℚ) (c : Vec3) (r : ℚ) (p : Pool) (game : Game)
    (h : PoolInv p) :
    PoolInv
      { all := (onXRFrame.collide now lj c r p.active p.all game).2.1,
        active := (onXRFrame.collide now lj c r p.active p.all game).1 } := by
  obtain ⟨hnd, hact, hfl⟩ := h
  obtain ⟨u1, u2⟩ := collide_inv now lj c r p.active p.all game hnd hact
  exact ⟨u1.nodup hnd, u2, collide_flaggedInActive now lj c r p game hfl⟩

theorem clear_poolInv (p : Pool) (h : PoolInv p) : PoolInv (pool.clear p) :=
  ⟨List.nodup_nil, fun i hi => absurd hi (List.not_mem_nil i), clear_flaggedInActive p h.2.2⟩

theorem spawner_update_poolInv (s : State) (dt : ℚ) (rnd : Rand) (h : PoolInv s.pool) :
    PoolInv (spawner.update s dt rnd).pool := by
  unfold spawner.update
  dsimp only
  split_ifs
  · exact spawn_poolInv _ rnd h
  · exact h

theorem gameUpdate_poolInv (s : State) (now : ℚ) (f : FrameInput) (h : PoolInv s.pool) :
    PoolInv (onXRFrame.gameUpdate s now f).pool := by
  unfold onXRFrame.gameUpdate
  split_ifs
  · dsimp only
    exact collide_poolInv _ _ _ _ _ _
      (update_poolInv _ _ (spawner_update_poolInv s _ f.rnd h))
  · exact h

theorem onXRFrame_poolInv (s : State) (f : FrameInput) (h : PoolInv s.pool) :
    PoolInv (onXRFrame s f).pool := by
  unfold onXRFrame
  cases f.pose with
  | none => exact h
  | some head => exact gameUpdate_poolInv _ _ f h

theorem apply_poolInv (s : State) (op : Op) (h : PoolInv s.pool) :
    PoolInv (Op.apply s op).pool := by
  cases op with
  | addScore pts => exact h
  | addMiss => exact h
  | spawn rnd => exact spawn_poolInv s rnd h
  | spawnerUpdate dt rnd => exact spawner_update_poolInv s dt rnd h
  | poolUpdate dt => exact update_poolInv s.pool dt h
  | poolClear => exact clear_poolInv s.pool h
  | frame f => exact onXRFrame_poolInv s f h
  | select =>
    simp only [Op.apply, onSelectPlace]
    split_ifs
    · exact h
    · exact clear_poolInv s.pool h
  | placeClick => exact h
  | recenterClick => exact h
  | resetClick => exact clear_poolInv s.pool h
  | startClick =>
    simp only [Op.apply, btnStart_click]
    split_ifs <;> exact h
  | sessionEnd => exact h

theorem run_poolInv (s : State) (ops : List Op) (h : PoolInv s.pool) :
    PoolInv (run s ops).pool := by
  induction ops generalizing s with
  | nil => exact h
  | cons op rest ih => exact ih (Op.apply s op) (apply_poolInv s op h)

/-- C15.  In every state reachable from the initial one (empty pool) through
`spawner.spawn`, `pool.update`, `pool.clear`, whole frames with their recycle
step and the other operations, `pool.active` contains no reference twice,
every reference in it points to an obstacle of `pool.all` that is flagged
active, and every obstacle of `pool.all` flagged active is referenced from
`pool.active`. -/
theorem pool_active_list_invariant (ops : List Op) :
    (run State.init ops).pool.active.Nodup ∧
    (∀ i ∈ (run State.init ops).pool.active,
      ∃ o, (run State.init ops).pool.all[i]? = some o ∧ o.active = true) ∧
    (∀ (i : ℕ) (o : Obstacle), (run State.init ops).pool.all[i]? = some o → o.active = true →
      i ∈ (run State.init ops).pool.active) :=
  run_poolInv State.init ops
    ⟨List.nodup_nil, fun i hi => absurd hi (List.not_mem_nil i), init_flaggedInActive⟩

end Parcours
